import Mathlib

/-!
Verification of the bookmark-summarizer processing pipeline.

The repository's visible source (`src/app/models.py`) is a pure data schema:
enumerations of status values and the persisted / request record shapes.
The pipeline logic itself (Bookmark Processor, Upload Scheduler, Summary
Aggregator, Recency Filter) is not present in the source tree, so it is
modelled here from the specification, over a faithful embedding of the
schema.  Python `datetime` values are embedded as `Int` seconds (UTC),
`Decimal` as `ℚ`, and JSON metadata dictionaries as association lists.
`max_length` column caps are boundary validation and are not modelled.
-/

namespace BookmarkCore

/-- `BookmarkStatus` from `src/app/models.py`: status of an upload. -/

inductive BookmarkStatus where
  | pending
  | processing
  | completed
  | failed
deriving Repr, DecidableEq

/-- `ContentExtractionStatus` from `src/app/models.py`: per-bookmark status. -/

inductive ContentExtractionStatus where
  | pending
  | extracting
  | filtering
  | summarizing
  | completed
  | failed
deriving Repr, DecidableEq

/-- `SummaryJobStatus` from `src/app/models.py`. -/

inductive SummaryJobStatus where
  | pending
  | processing
  | completed
  | failed
deriving Repr, DecidableEq

/-- A bookmark status is terminal when it is `completed` or `failed`. -/

def ContentExtractionStatus.isTerminal : ContentExtractionStatus → Bool
  | .completed => true
  | .failed => true
  | _ => false

/-- `BookmarkUpload` from `src/app/models.py`: one uploaded bookmark file. -/

structure BookmarkUpload where
  id : Option Int
  filename : String
  file_path : String
  file_size : Int
  upload_time : Int
  processing_status : BookmarkStatus
  total_bookmarks : Option Nat
  processed_bookmarks : Nat
  error_message : Option String
  processing_started_at : Option Int
  processing_completed_at : Option Int
deriving Repr, DecidableEq

/-- `Bookmark` from `src/app/models.py`: one bookmark of an upload. -/

structure Bookmark where
  id : Option Int
  upload_id : Int
  title : String
  url : String
  folder_path : Option String
  date_added : Option Int
  processing_status : ContentExtractionStatus
  processing_started_at : Option Int
  processing_completed_at : Option Int
  error_message : Option String
  retry_count : Nat
deriving Repr, DecidableEq

/-- `ExtractedContent` from `src/app/models.py`: result of fetching a
bookmark's URL, with the 24-hour recency decision applied. -/

structure ExtractedContent where
  id : Option Int
  bookmark_id : Int
  extraction_time : Int
  page_title : Option String
  page_url : String
  raw_content : String
  filtered_content : Option String
  content_date : Option Int
  content_metadata : List (String × String)
  has_recent_content : Bool
  content_summary : Option String
  summary_generated_at : Option Int
  extraction_method : String
  page_load_time : Option ℚ
deriving Repr, DecidableEq

/-- `SummaryJob` from `src/app/models.py`: final-digest job of one upload. -/

structure SummaryJob where
  id : Option Int
  upload_id : Int
  status : SummaryJobStatus
  started_at : Option Int
  completed_at : Option Int
  bookmarks_included : Nat
  final_summary : Option String
  summary_metadata : List (String × String)
  error_message : Option String
  llm_model_used : Option String
  token_count : Option Int
deriving Repr, DecidableEq

/-- `ProcessingLog` from `src/app/models.py`: append-only audit entry. -/

structure ProcessingLog where
  id : Option Int
  timestamp : Int
  upload_id : Option Int
  bookmark_id : Option Int
  operation : String
  status : String
  duration_seconds : Option ℚ
  details : List (String × String)
  error_details : Option String
deriving Repr, DecidableEq

/-- `BookmarkCreate` from `src/app/models.py`: ingestion record schema. -/

structure BookmarkCreate where
  upload_id : Int
  title : String
  url : String
  folder_path : Option String
  date_added : Option Int
deriving Repr, DecidableEq

/-- `ExtractedContentCreate` from `src/app/models.py`: creation schema for
extracted content.  It carries neither `content_summary` nor
`summary_generated_at`, so both are at their `None` defaults at creation. -/

structure ExtractedContentCreate where
  bookmark_id : Int
  page_title : Option String
  page_url : String
  raw_content : String
  filtered_content : Option String
  content_date : Option Int
  content_metadata : List (String × String)
  has_recent_content : Bool
  extraction_method : String
  page_load_time : Option ℚ
deriving Repr, DecidableEq

/-- `ContentSummaryUpdate` from `src/app/models.py`: the only update schema
touching the nugget; it requires the summary text and its generation
timestamp together (both fields are non-optional). -/

structure ContentSummaryUpdate where
  content_summary : String
  summary_generated_at : Int
deriving Repr, DecidableEq

/-- `SummaryJobCreate` from `src/app/models.py`. -/

structure SummaryJobCreate where
  upload_id : Int
deriving Repr, DecidableEq

/-- Build a persisted `Bookmark` row from a `BookmarkCreate` record, using the
source model's field defaults (`pending` status, `retry_count = 0`, all
optional fields `None`). -/

def Bookmark.fromCreate (bid : Int) (c : BookmarkCreate) : Bookmark :=
  { id := some bid
    upload_id := c.upload_id
    title := c.title
    url := c.url
    folder_path := c.folder_path
    date_added := c.date_added
    processing_status := .pending
    processing_started_at := none
    processing_completed_at := none
    error_message := none
    retry_count := 0 }

/-- Build a persisted `ExtractedContent` row from an `ExtractedContentCreate`
record at a given extraction time, using the source model's field defaults:
in particular `content_summary = None` and `summary_generated_at = None`,
neither being present in the creation schema. -/

def ExtractedContent.fromCreate (c : ExtractedContentCreate) (t : Int) :
    ExtractedContent :=
  { id := none
    bookmark_id := c.bookmark_id
    extraction_time := t
    page_title := c.page_title
    page_url := c.page_url
    raw_content := c.raw_content
    filtered_content := c.filtered_content
    content_date := c.content_date
    content_metadata := c.content_metadata
    has_recent_content := c.has_recent_content
    content_summary := none
    summary_generated_at := none
    extraction_method := c.extraction_method
    page_load_time := c.page_load_time }

/-- Apply a `ContentSummaryUpdate` to an `ExtractedContent` row: the nugget
text and its generation timestamp are set together. -/

def applySummaryUpdate (ec : ExtractedContent) (u : ContentSummaryUpdate) :
    ExtractedContent :=
  { ec with
    content_summary := some u.content_summary
    summary_generated_at := some u.summary_generated_at }

/-- Build a persisted `SummaryJob` row from a `SummaryJobCreate` record,
using the source model's field defaults (`pending` status, counters zero,
optional fields `None`). -/

def SummaryJob.fromCreate (c : SummaryJobCreate) : SummaryJob :=
  { id := none
    upload_id := c.upload_id
    status := .pending
    started_at := none
    completed_at := none
    bookmarks_included := 0
    final_summary := none
    summary_metadata := []
    error_message := none
    llm_model_used := none
    token_count := none }

/-- Seconds in the trailing recency window: 24 hours. -/

def recencyWindowSeconds : Int := 86400

/-- Modelled from the spec: the Recency Filter's date test (§4.4), absent
from `src/`.  A discovered content date `d` qualifies when it falls within
the trailing 24-hour window ending at extraction time `t`; all timestamps
are UTC seconds. -/

def isWithinWindow (t d : Int) : Bool :=
  decide (t - recencyWindowSeconds ≤ d) && decide (d ≤ t)

/-- Modelled from the spec: the Recency Filter's boolean decision (§4.4),
absent from `src/`.  A page has recent content iff at least one discovered
content date falls within the trailing 24-hour window ending at extraction
time; an empty date list yields `false` rather than an error. -/

def hasRecentContentOf (t : Int) (dates : List Int) : Bool :=
  dates.any (fun d => isWithinWindow t d)

/-- Modelled from the spec: `content_date` is the most recent qualifying
discovered date (§4.4). -/

def latestQualifying (t : Int) (dates : List Int) : Option Int :=
  (dates.filter (fun d => isWithinWindow t d)).foldl
    (fun acc d => match acc with
      | none => some d
      | some m => some (max m d)) none

/-- Modelled from the spec: the per-bookmark processing slot held by the
Upload Scheduler (§4.1, §4.2), absent from `src/`.  Besides the persisted
`Bookmark` row and its at-most-one `ExtractedContent` row, the slot carries
the extraction collaborator's discovered content dates while they await the
filtering stage, and the scheduler's flag recording that this bookmark's
terminal event has been counted into `processed_bookmarks`. -/

structure BookmarkSlot where
  bookmark : Bookmark
  content : Option ExtractedContent
  pendingDates : List Int
  observed : Bool
deriving Repr, DecidableEq

/-- Modelled from the spec: the whole pipeline state for one upload —
the `BookmarkUpload` row, its bookmark slots in creation (original file)
order, and the at-most-one `SummaryJob` row (§3, §4.2). -/

structure SystemState where
  upload : BookmarkUpload
  slots : List BookmarkSlot
  summaryJob : Option SummaryJob
deriving Repr, DecidableEq

/-- Update the element at position `i` of a slot list, leaving every other
position unchanged. -/

def listUpd : List BookmarkSlot → Nat → (BookmarkSlot → BookmarkSlot) →
    List BookmarkSlot
  | [], _, _ => []
  | x :: xs, 0, f => f x :: xs
  | x :: xs, n + 1, f => x :: listUpd xs n f

/-- Apply `f` to the slot at position `i` of the state. -/

def updSlot (s : SystemState) (i : Nat) (f : BookmarkSlot → BookmarkSlot) :
    SystemState :=
  { s with slots := listUpd s.slots i f }

/-- The slot at position `i`, if any. -/

def slotAt (s : SystemState) (i : Nat) : Option BookmarkSlot := s.slots[i]?

/-- The processing status of the bookmark at position `i`, if any. -/

def statusAt (s : SystemState) (i : Nat) : Option ContentExtractionStatus :=
  (slotAt s i).map (fun sl => sl.bookmark.processing_status)

/-- The recency decision for the bookmark at position `i`: the Recency
Filter applied to its extraction time and the discovered dates pending in
its slot. -/

def recentAt (s : SystemState) (i : Nat) : Option Bool :=
  (slotAt s i).bind (fun sl =>
    sl.content.map (fun ec =>
      hasRecentContentOf ec.extraction_time sl.pendingDates))

/-- Whether the slot at position `i` has been counted by the scheduler. -/

def observedAt (s : SystemState) (i : Nat) : Option Bool :=
  (slotAt s i).map (fun sl => sl.observed)

/-- Number of slots whose terminal event the scheduler has counted. -/

def countObserved (slots : List BookmarkSlot) : Nat :=
  (slots.filter (fun sl => sl.observed)).length

/-- Whether every slot's terminal event has been counted (quiescence, as
the scheduler detects it). -/

def allObserved (slots : List BookmarkSlot) : Bool :=
  slots.all (fun sl => sl.observed)

/-- Whether some bookmark of the upload reached `completed`. -/

def anyCompleted (slots : List BookmarkSlot) : Bool :=
  slots.any (fun sl =>
    decide (sl.bookmark.processing_status = ContentExtractionStatus.completed))

/-- Whether every bookmark of the upload reached `failed`. -/

def allFailed (slots : List BookmarkSlot) : Bool :=
  slots.all (fun sl =>
    decide (sl.bookmark.processing_status = ContentExtractionStatus.failed))

/-- Modelled from the spec: the shared retry-then-fail policy (§4.1),
absent from `src/`.  On a transient failure of extraction or summarization
the single per-bookmark `retry_count` is incremented; while it remains
below `max_retries` the bookmark returns to `pending` for re-dispatch,
otherwise it transitions to `failed` with the captured error. -/

def applyFailure (maxRetries : Nat) (b : Bookmark) (err : String) : Bookmark :=
  if b.retry_count + 1 < maxRetries then
    { b with retry_count := b.retry_count + 1, processing_status := .pending }
  else
    { b with retry_count := b.retry_count + 1, processing_status := .failed,
             error_message := some err }

/-- Modelled from the spec: the Summary Aggregator's selection (§4.3),
absent from `src/` — the nuggets of exactly those bookmarks whose extracted
content has `has_recent_content = true` and a non-null nugget, in bookmark
creation (original file) order. -/

def selectNuggets (slots : List BookmarkSlot) : List String :=
  slots.filterMap (fun sl =>
    sl.content.bind (fun ec =>
      if ec.has_recent_content then ec.content_summary else none))

/-- Modelled from the spec: the final digest text (§4.3), absent from
`src/`.  An empty selection is not an error and produces an explicit
"no recent activity" digest; otherwise the external final-summarization
collaborator `f` is applied to the ordered nugget list. -/

def finalDigestText (nuggets : List String) (f : List String → String) :
    String :=
  if nuggets.isEmpty then "No recent activity in the last 24 hours." else
    f nuggets

/-- Modelled from the spec: bulk creation of bookmark slots at ingestion
(§4.2), absent from `src/` — one `pending` bookmark row per ingestion
record, ids assigned sequentially in file order, slots unobserved. -/

def mkSlots (bid : Int) : List BookmarkCreate → List BookmarkSlot
  | [] => []
  | c :: cs =>
      { bookmark := Bookmark.fromCreate bid c
        content := none
        pendingDates := []
        observed := false } :: mkSlots (bid + 1) cs

/-- Mark a slot's terminal event as counted by the scheduler. -/

def markObserved (sl : BookmarkSlot) : BookmarkSlot :=
  { sl with observed := true }

/-- Modelled from the spec: the atomic operations of the processing
pipeline (§4.1 Bookmark Processor, §4.2 Upload Scheduler, §4.3 Summary
Aggregator), none of which are present under `src/`.  `mr` is the
configured `max_retries` budget.  External collaborator outputs (raw text,
discovered dates, nuggets, the final digest function) enter as constructor
parameters. -/

inductive Step (mr : Nat) : SystemState → SystemState → Prop where
  /-- Ingestion succeeds with a non-empty record list: the upload moves to
  `processing` and one `pending` bookmark per record is created in file
  order. -/
  | ingestOk (s : SystemState) (recs : List BookmarkCreate) (t : Int)
      (hst : s.upload.processing_status = .pending)
      (hsl : s.slots = [])
      (hrecs : recs ≠ [])
      (hown : ∀ c ∈ recs, some c.upload_id = s.upload.id) :
      Step mr s
        { upload := { s.upload with
            processing_status := .processing
            total_bookmarks := some recs.length
            processing_started_at := some t }
          slots := mkSlots 0 recs
          summaryJob := s.summaryJob }
  /-- Ingestion produces no bookmark records (declared count zero, or the
  ingestion collaborator reports an error): the upload moves directly to
  `failed`, bypassing per-bookmark dispatch. -/
  | ingestFail (s : SystemState) (err : String) (t : Int)
      (hst : s.upload.processing_status = .pending)
      (hsl : s.slots = []) :
      Step mr s
        { upload := { s.upload with
            processing_status := .failed
            total_bookmarks := some 0
            error_message := some err
            processing_completed_at := some t }
          slots := s.slots
          summaryJob := s.summaryJob }
  /-- Dispatch a `pending` bookmark: it moves to `extracting` and records
  its start timestamp. -/
  | bmDispatch (s : SystemState) (i : Nat) (t : Int)
      (hup : s.upload.processing_status = .processing)
      (hbm : statusAt s i = some .pending) :
      Step mr s (updSlot s i (fun sl =>
        { sl with bookmark := { sl.bookmark with
            processing_status := .extracting
            processing_started_at := some t } }))
  /-- Extraction succeeds: the extracted-content row is created from the
  collaborator's output via the creation schema (recency fields at their
  defaults), the discovered dates await filtering, and the bookmark moves
  to `filtering`. -/
  | bmExtractOk (s : SystemState) (i : Nat)
      (pageTitle : Option String) (pageUrl : String) (raw : String)
      (meta : List (String × String)) (method : String)
      (loadTime : Option ℚ) (dates : List Int) (t : Int)
      (hup : s.upload.processing_status = .processing)
      (hbm : statusAt s i = some .extracting) :
      Step mr s (updSlot s i (fun sl =>
        { sl with
          bookmark := { sl.bookmark with processing_status := .filtering }
          content := some (ExtractedContent.fromCreate
            { bookmark_id := sl.bookmark.id.getD 0
              page_title := pageTitle
              page_url := pageUrl
              raw_content := raw
              filtered_content := none
              content_date := none
              content_metadata := meta
              has_recent_content := false
              extraction_method := method
              page_load_time := loadTime } t)
          pendingDates := dates }))
  /-- Extraction fails transiently: the shared retry-then-fail policy is
  applied to the bookmark. -/
  | bmExtractFail (s : SystemState) (i : Nat) (err : String)
      (hup : s.upload.processing_status = .processing)
      (hbm : statusAt s i = some .extracting) :
      Step mr s (updSlot s i (fun sl =>
        { sl with bookmark := applyFailure mr sl.bookmark err }))
  /-- Filtering finds no recent content: the recency flag stays false, no
  filtered text or content date is stored, summarization is skipped and
  the bookmark completes (a valid terminal outcome, not a failure). -/
  | bmFilterNoRecent (s : SystemState) (i : Nat) (t : Int)
      (hup : s.upload.processing_status = .processing)
      (hbm : statusAt s i = some .filtering)
      (hrec : recentAt s i = some false) :
      Step mr s (updSlot s i (fun sl =>
        { sl with
          bookmark := { sl.bookmark with
            processing_status := .completed
            processing_completed_at := some t }
          content := sl.content.map (fun ec =>
            { ec with
              has_recent_content := false
              filtered_content := none
              content_date := none })
          pendingDates := [] }))
  /-- Filtering finds recent content: the recency flag is set, the
  windowed text `fc` (attribution is the extraction collaborator's
  concern) and the most recent qualifying date are stored, and the
  bookmark moves to `summarizing`. -/
  | bmFilterRecent (s : SystemState) (i : Nat) (fc : String)
      (hup : s.upload.processing_status = .processing)
      (hbm : statusAt s i = some .filtering)
      (hrec : recentAt s i = some true) :
      Step mr s (updSlot s i (fun sl =>
        { sl with
          bookmark := { sl.bookmark with processing_status := .summarizing }
          content := sl.content.map (fun ec =>
            { ec with
              has_recent_content := true
              filtered_content := some fc
              content_date := latestQualifying ec.extraction_time
                sl.pendingDates })
          pendingDates := [] }))
  /-- Summarization succeeds: the nugget and its generation timestamp are
  stored together through the update schema and the bookmark completes. -/
  | bmSummarizeOk (s : SystemState) (i : Nat) (u : ContentSummaryUpdate)
      (t : Int)
      (hup : s.upload.processing_status = .processing)
      (hbm : statusAt s i = some .summarizing) :
      Step mr s (updSlot s i (fun sl =>
        { sl with
          bookmark := { sl.bookmark with
            processing_status := .completed
            processing_completed_at := some t }
          content := sl.content.map (fun ec => applySummaryUpdate ec u) }))
  /-- Summarization fails transiently: the same retry-then-fail policy as
  extraction, against the same per-bookmark `retry_count` budget. -/
  | bmSummarizeFail (s : SystemState) (i : Nat) (err : String)
      (hup : s.upload.processing_status = .processing)
      (hbm : statusAt s i = some .summarizing) :
      Step mr s (updSlot s i (fun sl =>
        { sl with bookmark := applyFailure mr sl.bookmark err }))
  /-- The scheduler counts a terminal bookmark that does not yet quiesce
  the fan-out: `processed_bookmarks` is incremented. -/
  | observeProgress (s : SystemState) (i : Nat)
      (hup : s.upload.processing_status = .processing)
      (hterm : (statusAt s i).map ContentExtractionStatus.isTerminal =
        some true)
      (hobs : observedAt s i = some false)
      (hmore : allObserved (listUpd s.slots i markObserved) = false) :
      Step mr s
        { upload := { s.upload with
            processed_bookmarks := s.upload.processed_bookmarks + 1 }
          slots := listUpd s.slots i markObserved
          summaryJob := s.summaryJob }
  /-- The scheduler counts the last terminal bookmark and at least one
  bookmark completed: the upload completes and the Summary Aggregator is
  triggered, creating the upload's `SummaryJob` in `pending`. -/
  | observeLastCompleted (s : SystemState) (i : Nat) (t : Int)
      (hup : s.upload.processing_status = .processing)
      (hterm : (statusAt s i).map ContentExtractionStatus.isTerminal =
        some true)
      (hobs : observedAt s i = some false)
      (hall : allObserved (listUpd s.slots i markObserved) = true)
      (hsome : anyCompleted s.slots = true) :
      Step mr s
        { upload := { s.upload with
            processed_bookmarks := s.upload.processed_bookmarks + 1
            processing_status := .completed
            processing_completed_at := some t }
          slots := listUpd s.slots i markObserved
          summaryJob := some (SummaryJob.fromCreate
            { upload_id := s.upload.id.getD 0 }) }
  /-- The scheduler counts the last terminal bookmark and no bookmark
  completed (every bookmark failed): the upload fails and no summary job
  is created. -/
  | observeLastAllFailed (s : SystemState) (i : Nat) (err : String) (t : Int)
      (hup : s.upload.processing_status = .processing)
      (hterm : (statusAt s i).map ContentExtractionStatus.isTerminal =
        some true)
      (hobs : observedAt s i = some false)
      (hall : allObserved (listUpd s.slots i markObserved) = true)
      (hnone : anyCompleted s.slots = false) :
      Step mr s
        { upload := { s.upload with
            processed_bookmarks := s.upload.processed_bookmarks + 1
            processing_status := .failed
            error_message := some err
            processing_completed_at := some t }
          slots := listUpd s.slots i markObserved
          summaryJob := s.summaryJob }
  /-- The aggregator starts: the pending summary job records its start
  time and moves to `processing`. -/
  | jobStart (s : SystemState) (job : SummaryJob) (t : Int)
      (hjob : s.summaryJob = some job)
      (hst : job.status = .pending) :
      Step mr s { s with summaryJob := some { job with
          status := .processing
          started_at := some t } }
  /-- The aggregator completes: the selection's nuggets (in creation
  order) are passed to the final-summarization collaborator `f`; the job
  stores the digest, `bookmarks_included` equal to the selection size, the
  model identifier and token count. -/
  | jobComplete (s : SystemState) (job : SummaryJob)
      (f : List String → String) (modelName : String) (tok : Int) (t : Int)
      (hjob : s.summaryJob = some job)
      (hst : job.status = .processing) :
      Step mr s { s with summaryJob := some { job with
          status := .completed
          completed_at := some t
          bookmarks_included := (selectNuggets s.slots).length
          final_summary := some (finalDigestText (selectNuggets s.slots) f)
          llm_model_used := some modelName
          token_count := some tok } }
  /-- The aggregator fails on a collaborator error: only the job's own
  fields change (the error is recorded); no automatic retry. -/
  | jobFail (s : SystemState) (job : SummaryJob) (err : String)
      (hjob : s.summaryJob = some job)
      (hst : job.status = .processing) :
      Step mr s { s with summaryJob := some { job with
          status := .failed
          error_message := some err } }

/-- A freshly ingested upload: all `BookmarkUpload` fields at the source
model's defaults, no bookmarks yet, no summary job. -/

def IsInit (s : SystemState) : Prop :=
  s.upload.processing_status = .pending ∧
  s.upload.total_bookmarks = none ∧
  s.upload.processed_bookmarks = 0 ∧
  s.upload.error_message = none ∧
  s.upload.processing_started_at = none ∧
  s.upload.processing_completed_at = none ∧
  s.slots = [] ∧
  s.summaryJob = none

instance (s : SystemState) : Decidable (IsInit s) := by
  unfold IsInit; infer_instance

/-- A pipeline state reachable from some freshly created upload by the
modelled operations, under retry budget `mr`. -/

def Reachable (mr : Nat) (s : SystemState) : Prop :=
  ∃ s0, IsInit s0 ∧ Relation.ReflTransGen (Step mr) s0 s

/-- Consistency conditions on one extracted-content row relative to its
bookmark: the recency/filter/summary dependency chain, the paired summary
fields, and the fact that a nugget exists only on a completed bookmark. -/

def ContentOk (sl : BookmarkSlot) (ec : ExtractedContent) : Prop :=
  (ec.filtered_content ≠ none → ec.has_recent_content = true) ∧
  (ec.content_summary ≠ none → ec.filtered_content ≠ none) ∧
  (ec.content_summary = none ↔ ec.summary_generated_at = none) ∧
  (ec.content_summary ≠ none → sl.bookmark.processing_status = .completed)

/-- The aggregate shape of the state, by upload status. -/

def ShapeBranch (s : SystemState) : BookmarkStatus → Prop
  | .pending =>
      s.upload.total_bookmarks = none ∧ s.slots = [] ∧
      s.upload.processed_bookmarks = 0 ∧ s.summaryJob = none
  | .processing =>
      s.upload.total_bookmarks = some s.slots.length ∧ s.slots ≠ [] ∧
      s.summaryJob = none ∧ countObserved s.slots < s.slots.length
  | .completed =>
      s.upload.total_bookmarks = some s.slots.length ∧ s.slots ≠ [] ∧
      countObserved s.slots = s.slots.length ∧
      (∀ sl ∈ s.slots, sl.bookmark.processing_status.isTerminal = true) ∧
      anyCompleted s.slots = true ∧
      s.summaryJob.isSome = true
  | .failed =>
      (s.slots = [] ∧ s.upload.total_bookmarks = some 0 ∧
        s.upload.processed_bookmarks = 0 ∧ s.summaryJob = none) ∨
      (s.upload.total_bookmarks = some s.slots.length ∧ s.slots ≠ [] ∧
        countObserved s.slots = s.slots.length ∧
        allFailed s.slots = true ∧ s.summaryJob = none)

/-- The aggregate shape at the state's own upload status. -/

def ShapeInv (s : SystemState) : Prop :=
  ShapeBranch s s.upload.processing_status

/-- The inductive invariant of the pipeline: counter bookkeeping, the
status-dependent aggregate shape, the retry bound, and per-slot content
consistency. -/

structure Inv (mr : Nat) (s : SystemState) : Prop where
  processedEq : s.upload.processed_bookmarks = countObserved s.slots
  observedTerminal : ∀ sl ∈ s.slots, sl.observed = true →
    sl.bookmark.processing_status.isTerminal = true
  shape : ShapeInv s
  retryBound : ∀ sl ∈ s.slots, 1 ≤ mr →
    sl.bookmark.retry_count ≤ mr ∧
    (sl.bookmark.processing_status.isTerminal = false →
      sl.bookmark.retry_count < mr)
  contentOk : ∀ sl ∈ s.slots, ∀ ec, sl.content = some ec → ContentOk sl ec
  summarizingOk : ∀ sl ∈ s.slots,
    sl.bookmark.processing_status = .summarizing →
    ∃ ec, sl.content = some ec ∧ ec.has_recent_content = true ∧
      ec.filtered_content ≠ none

/-- Sample upload row at the source model's defaults. -/

def sampleUpload : BookmarkUpload :=
  { id := some 1
    filename := "bookmarks.html"
    file_path := "/uploads/bookmarks.html"
    file_size := 2048
    upload_time := 0
    processing_status := .pending
    total_bookmarks := none
    processed_bookmarks := 0
    error_message := none
    processing_started_at := none
    processing_completed_at := none }

/-- A freshly created pipeline state for the sample upload. -/

def state0 : SystemState :=
  { upload := sampleUpload, slots := [], summaryJob := none }

def recB1 : BookmarkCreate :=
  { upload_id := 1, title := "B1", url := "https://one.example",
    folder_path := none, date_added := none }

def recB2 : BookmarkCreate :=
  { upload_id := 1, title := "B2", url := "https://two.example",
    folder_path := none, date_added := none }

def recB3 : BookmarkCreate :=
  { upload_id := 1, title := "B3", url := "https://three.example",
    folder_path := none, date_added := none }

def stB1 : SystemState :=
  { upload := { state0.upload with
      processing_status := .processing
      total_bookmarks := some [recB1, recB2, recB3].length
      processing_started_at := some 1 }
    slots := mkSlots 0 [recB1, recB2, recB3]
    summaryJob := state0.summaryJob }

def stB2 : SystemState := updSlot stB1 0 (fun sl =>
  { sl with bookmark := { sl.bookmark with
      processing_status := .extracting
      processing_started_at := some 2 } })

def stB3 : SystemState := updSlot stB2 0 (fun sl =>
  { sl with
    bookmark := { sl.bookmark with processing_status := .filtering }
    content := some (ExtractedContent.fromCreate
      { bookmark_id := sl.bookmark.id.getD 0
        page_title := none
        page_url := "https://one.example/final"
        raw_content := "raw one"
        filtered_content := none
        content_date := none
        content_metadata := []
        has_recent_content := false
        extraction_method := "readability"
        page_load_time := none } 100)
    pendingDates := [100] })

def stB4 : SystemState := updSlot stB3 0 (fun sl =>
  { sl with
    bookmark := { sl.bookmark with processing_status := .summarizing }
    content := sl.content.map (fun ec =>
      { ec with
        has_recent_content := true
        filtered_content := some "recent one"
        content_date := latestQualifying ec.extraction_time
          sl.pendingDates })
    pendingDates := [] })

def stB5 : SystemState := updSlot stB4 0 (fun sl =>
  { sl with
    bookmark := { sl.bookmark with
      processing_status := .completed
      processing_completed_at := some 102 }
    content := sl.content.map (fun ec => applySummaryUpdate ec
      { content_summary := "alpha", summary_generated_at := 101 }) })

def stB6 : SystemState := updSlot stB5 1 (fun sl =>
  { sl with bookmark := { sl.bookmark with
      processing_status := .extracting
      processing_started_at := some 3 } })

def stB7 : SystemState := updSlot stB6 1 (fun sl =>
  { sl with
    bookmark := { sl.bookmark with processing_status := .filtering }
    content := some (ExtractedContent.fromCreate
      { bookmark_id := sl.bookmark.id.getD 0
        page_title := none
        page_url := "https://two.example/final"
        raw_content := "raw two"
        filtered_content := none
        content_date := none
        content_metadata := []
        has_recent_content := false
        extraction_method := "readability"
        page_load_time := none } 200)
    pendingDates := [200] })

def stB8 : SystemState := updSlot stB7 1 (fun sl =>
  { sl with
    bookmark := { sl.bookmark with processing_status := .summarizing }
    content := sl.content.map (fun ec =>
      { ec with
        has_recent_content := true
        filtered_content := some "recent two"
        content_date := latestQualifying ec.extraction_time
          sl.pendingDates })
    pendingDates := [] })

def stB9 : SystemState := updSlot stB8 1 (fun sl =>
  { sl with
    bookmark := { sl.bookmark with
      processing_status := .completed
      processing_completed_at := some 202 }
    content := sl.content.map (fun ec => applySummaryUpdate ec
      { content_summary := "beta", summary_generated_at := 201 }) })

def stB10 : SystemState := updSlot stB9 2 (fun sl =>
  { sl with bookmark := { sl.bookmark with
      processing_status := .extracting
      processing_started_at := some 4 } })

def stB11 : SystemState := updSlot stB10 2 (fun sl =>
  { sl with
    bookmark := { sl.bookmark with processing_status := .filtering }
    content := some (ExtractedContent.fromCreate
      { bookmark_id := sl.bookmark.id.getD 0
        page_title := none
        page_url := "https://three.example/final"
        raw_content := "raw three"
        filtered_content := none
        content_date := none
        content_metadata := []
        has_recent_content := false
        extraction_method := "readability"
        page_load_time := none } 300)
    pendingDates := [] })

def stB12 : SystemState := updSlot stB11 2 (fun sl =>
  { sl with
    bookmark := { sl.bookmark with
      processing_status := .completed
      processing_completed_at := some 301 }
    content := sl.content.map (fun ec =>
      { ec with
        has_recent_content := false
        filtered_content := none
        content_date := none })
    pendingDates := [] })

def stB13 : SystemState :=
  { upload := { stB12.upload with
      processed_bookmarks := stB12.upload.processed_bookmarks + 1 }
    slots := listUpd stB12.slots 0 markObserved
    summaryJob := stB12.summaryJob }

def stB14 : SystemState :=
  { upload := { stB13.upload with
      processed_bookmarks := stB13.upload.processed_bookmarks + 1 }
    slots := listUpd stB13.slots 1 markObserved
    summaryJob := stB13.summaryJob }

def stB15 : SystemState :=
  { upload := { stB14.upload with
      processed_bookmarks := stB14.upload.processed_bookmarks + 1
      processing_status := .completed
      processing_completed_at := some 400 }
    slots := listUpd stB14.slots 2 markObserved
    summaryJob := some (SummaryJob.fromCreate
      { upload_id := stB14.upload.id.getD 0 }) }

def jobB1 : SummaryJob :=
  { SummaryJob.fromCreate { upload_id := stB14.upload.id.getD 0 } with
    status := SummaryJobStatus.processing
    started_at := some 401 }

def stB16 : SystemState := { stB15 with summaryJob := some jobB1 }

def stB17 : SystemState :=
  { stB16 with summaryJob := some { jobB1 with
      status := SummaryJobStatus.completed
      completed_at := some 402
      bookmarks_included := (selectNuggets stB16.slots).length
      final_summary := some (finalDigestText (selectNuggets stB16.slots)
        (fun l => String.intercalate "; " l))
      llm_model_used := some "test-model"
      token_count := some 42 } }

def stB17f : SystemState :=
  { stB16 with summaryJob := some { jobB1 with
      status := SummaryJobStatus.failed
      error_message := some "llm unavailable" } }

instance : Inhabited Bookmark where
  default := Bookmark.fromCreate 0 ⟨0, "", "", none, none⟩

instance : Inhabited ExtractedContent where
  default := ExtractedContent.fromCreate
    ⟨0, none, "", "", none, none, [], false, "", none⟩ 0

instance : Inhabited BookmarkSlot where
  default := ⟨default, none, [], false⟩

instance : Inhabited SummaryJob where
  default := SummaryJob.fromCreate ⟨0⟩

def wSlot16 : BookmarkSlot := stB16.slots.getD 0 default

def wSlot17 : BookmarkSlot := stB17.slots.getD 0 default

def wEC17 : ExtractedContent := wSlot17.content.getD default

def stC1 : SystemState :=
  { upload := { state0.upload with
      processing_status := .processing
      total_bookmarks := some [recB1].length
      processing_started_at := some 1 }
    slots := mkSlots 0 [recB1]
    summaryJob := state0.summaryJob }

def stC2 : SystemState := updSlot stC1 0 (fun sl =>
  { sl with bookmark := { sl.bookmark with
      processing_status := .extracting
      processing_started_at := some 2 } })

def stC3 : SystemState := updSlot stC2 0 (fun sl =>
  { sl with bookmark := applyFailure 3 sl.bookmark "timeout" })

def stC4 : SystemState := updSlot stC3 0 (fun sl =>
  { sl with bookmark := { sl.bookmark with
      processing_status := .extracting
      processing_started_at := some 3 } })

def stC5 : SystemState := updSlot stC4 0 (fun sl =>
  { sl with bookmark := applyFailure 3 sl.bookmark "timeout" })

def stC6 : SystemState := updSlot stC5 0 (fun sl =>
  { sl with bookmark := { sl.bookmark with
      processing_status := .extracting
      processing_started_at := some 4 } })

def stC7 : SystemState := updSlot stC6 0 (fun sl =>
  { sl with
    bookmark := { sl.bookmark with processing_status := .filtering }
    content := some (ExtractedContent.fromCreate
      { bookmark_id := sl.bookmark.id.getD 0
        page_title := none
        page_url := "https://one.example/final"
        raw_content := "raw one"
        filtered_content := none
        content_date := none
        content_metadata := []
        has_recent_content := false
        extraction_method := "readability"
        page_load_time := none } 5)
    pendingDates := [] })

def stC8 : SystemState := updSlot stC7 0 (fun sl =>
  { sl with
    bookmark := { sl.bookmark with
      processing_status := .completed
      processing_completed_at := some 6 }
    content := sl.content.map (fun ec =>
      { ec with
        has_recent_content := false
        filtered_content := none
        content_date := none })
    pendingDates := [] })

def stC9 : SystemState :=
  { upload := { stC8.upload with
      processed_bookmarks := stC8.upload.processed_bookmarks + 1
      processing_status := .completed
      processing_completed_at := some 7 }
    slots := listUpd stC8.slots 0 markObserved
    summaryJob := some (SummaryJob.fromCreate
      { upload_id := stC8.upload.id.getD 0 }) }

def wSlotC2 : BookmarkSlot := stC2.slots.getD 0 default

def wSlotC3 : BookmarkSlot := stC3.slots.getD 0 default

def wJob17 : SummaryJob := stB17.summaryJob.getD default

def wJob17f : SummaryJob := stB17f.summaryJob.getD default

theorem listUpd_length (l : List BookmarkSlot) (i : Nat)
    (f : BookmarkSlot → BookmarkSlot) : (listUpd l i f).length = l.length := by
  induction l generalizing i with
  | nil => rfl
  | cons x xs ih =>
    cases i with
    | zero => rfl
    | succ n => simp [listUpd, ih]

theorem listUpd_getElem_self (l : List BookmarkSlot) (i : Nat)
    (f : BookmarkSlot → BookmarkSlot) :
    (listUpd l i f)[i]? = (l[i]?).map f := by
  induction l generalizing i with
  | nil => cases i <;> simp [listUpd]
  | cons x xs ih =>
    cases i with
    | zero => simp [listUpd]
    | succ n =>
      simp only [listUpd, List.getElem?_cons_succ]
      exact ih n

theorem listUpd_getElem_ne (l : List BookmarkSlot) (i : Nat)
    (f : BookmarkSlot → BookmarkSlot) (j : Nat) (h : j ≠ i) :
    (listUpd l i f)[j]? = l[j]? := by
  induction l generalizing i j with
  | nil => simp [listUpd]
  | cons x xs ih =>
    cases i with
    | zero =>
      cases j with
      | zero => exact absurd rfl h
      | succ m => simp [listUpd]
    | succ n =>
      cases j with
      | zero => simp [listUpd]
      | succ m =>
        simp only [listUpd, List.getElem?_cons_succ]
        exact ih n m (fun hc => h (by rw [hc]))

theorem mem_listUpd (l : List BookmarkSlot) (i : Nat)
    (f : BookmarkSlot → BookmarkSlot) (x : BookmarkSlot)
    (h : x ∈ listUpd l i f) :
    x ∈ l ∨ ∃ y, l[i]? = some y ∧ x = f y := by
  induction l generalizing i with
  | nil => simp [listUpd] at h
  | cons z zs ih =>
    cases i with
    | zero =>
      rcases List.mem_cons.mp h with h1 | h1
      · exact Or.inr ⟨z, by simp, h1⟩
      · exact Or.inl (List.mem_cons_of_mem _ h1)
    | succ n =>
      rcases List.mem_cons.mp h with h1 | h1
      · exact Or.inl (h1 ▸ List.mem_cons_self _ _)
      · rcases ih n h1 with h2 | ⟨y, hy, hxy⟩
        · exact Or.inl (List.mem_cons_of_mem _ h2)
        · exact Or.inr ⟨y, by rw [List.getElem?_cons_succ]; exact hy, hxy⟩

theorem forall_mem_listUpd {p : BookmarkSlot → Prop} (l : List BookmarkSlot)
    (i : Nat) (f : BookmarkSlot → BookmarkSlot)
    (h1 : ∀ x ∈ l, p x) (h2 : ∀ y, l[i]? = some y → p (f y)) :
    ∀ x ∈ listUpd l i f, p x := by
  intro x hx
  rcases mem_listUpd l i f x hx with h | ⟨y, hy, rfl⟩
  · exact h1 x h
  · exact h2 y hy

theorem exists_mem_listUpd {p : BookmarkSlot → Prop} (l : List BookmarkSlot)
    (i : Nat) (f : BookmarkSlot → BookmarkSlot)
    (hf : ∀ y, p y → p (f y)) (h : ∃ x ∈ l, p x) :
    ∃ x ∈ listUpd l i f, p x := by
  induction l generalizing i with
  | nil => simp at h
  | cons z zs ih =>
    rcases h with ⟨x, hx, hp⟩
    cases i with
    | zero =>
      rcases List.mem_cons.mp hx with rfl | h1
      · exact ⟨f x, List.mem_cons_self _ _, hf x hp⟩
      · exact ⟨x, List.mem_cons_of_mem _ h1, hp⟩
    | succ n =>
      rcases List.mem_cons.mp hx with rfl | h1
      · exact ⟨x, List.mem_cons_self _ _, hp⟩
      · rcases ih n ⟨x, h1, hp⟩ with ⟨w, hw, hpw⟩
        exact ⟨w, List.mem_cons_of_mem _ hw, hpw⟩

theorem countObserved_le (l : List BookmarkSlot) :
    countObserved l ≤ l.length :=
  List.length_filter_le _ l

theorem countObserved_cons_true (x : BookmarkSlot) (l : List BookmarkSlot)
    (hx : x.observed = true) :
    countObserved (x :: l) = countObserved l + 1 := by
  simp [countObserved, List.filter_cons, hx]

theorem countObserved_cons_false (x : BookmarkSlot) (l : List BookmarkSlot)
    (hx : x.observed = false) :
    countObserved (x :: l) = countObserved l := by
  simp [countObserved, List.filter_cons, hx]

theorem countObserved_listUpd_of (l : List BookmarkSlot) (i : Nat)
    (f : BookmarkSlot → BookmarkSlot)
    (hf : ∀ sl, (f sl).observed = sl.observed) :
    countObserved (listUpd l i f) = countObserved l := by
  induction l generalizing i with
  | nil => rfl
  | cons x xs ih =>
    cases i with
    | zero =>
      rw [show listUpd (x :: xs) 0 f = f x :: xs by simp [listUpd]]
      cases hx : x.observed with
      | true =>
        rw [countObserved_cons_true _ _ ((hf x).trans hx),
          countObserved_cons_true _ _ hx]
      | false =>
        rw [countObserved_cons_false _ _ ((hf x).trans hx),
          countObserved_cons_false _ _ hx]
    | succ n =>
      rw [show listUpd (x :: xs) (n + 1) f = x :: listUpd xs n f
        by simp [listUpd]]
      cases hx : x.observed with
      | true =>
        rw [countObserved_cons_true _ _ hx, countObserved_cons_true _ _ hx,
          ih]
      | false =>
        rw [countObserved_cons_false _ _ hx,
          countObserved_cons_false _ _ hx, ih]

theorem countObserved_listUpd_markObserved (l : List BookmarkSlot) (i : Nat)
    (sl : BookmarkSlot) (h : l[i]? = some sl) (hobs : sl.observed = false) :
    countObserved (listUpd l i markObserved) = countObserved l + 1 := by
  induction l generalizing i with
  | nil => simp at h
  | cons x xs ih =>
    cases i with
    | zero =>
      have hx : x.observed = false := by
        have hxs : x = sl := by simpa using h
        rw [hxs]
        exact hobs
      rw [show listUpd (x :: xs) 0 markObserved = markObserved x :: xs
        by simp [listUpd]]
      rw [countObserved_cons_true _ _ rfl, countObserved_cons_false _ _ hx]
    | succ n =>
      have h' : xs[n]? = some sl := by simpa using h
      rw [show listUpd (x :: xs) (n + 1) markObserved =
        x :: listUpd xs n markObserved by simp [listUpd]]
      cases hx : x.observed with
      | true =>
        rw [countObserved_cons_true _ _ hx, countObserved_cons_true _ _ hx,
          ih n h']
      | false =>
        rw [countObserved_cons_false _ _ hx,
          countObserved_cons_false _ _ hx, ih n h']

theorem allObserved_iff (l : List BookmarkSlot) :
    allObserved l = true ↔ countObserved l = l.length := by
  induction l with
  | nil => simp [allObserved, countObserved]
  | cons x xs ih =>
    have hle := countObserved_le xs
    simp only [allObserved, List.all_cons] at ih ⊢
    cases hx : x.observed with
    | true =>
      rw [countObserved_cons_true _ _ hx]
      simp only [Bool.true_and, List.length_cons]
      constructor
      · intro h
        have := ih.mp h
        omega
      · intro h
        exact ih.mpr (by omega)
    | false =>
      rw [countObserved_cons_false _ _ hx]
      simp only [Bool.false_and, List.length_cons]
      constructor
      · intro h
        exact absurd h (by simp)
      · intro h
        exact absurd h (by omega)

theorem mkSlots_length (bid : Int) (recs : List BookmarkCreate) :
    (mkSlots bid recs).length = recs.length := by
  induction recs generalizing bid with
  | nil => rfl
  | cons c cs ih => simp [mkSlots, ih]

theorem mkSlots_mem (bid : Int) (recs : List BookmarkCreate)
    (sl : BookmarkSlot) (h : sl ∈ mkSlots bid recs) :
    sl.observed = false ∧ sl.bookmark.processing_status = .pending ∧
    sl.bookmark.retry_count = 0 ∧ sl.content = none := by
  induction recs generalizing bid with
  | nil => simp [mkSlots] at h
  | cons c cs ih =>
    rcases List.mem_cons.mp h with rfl | h1
    · exact ⟨rfl, rfl, rfl, rfl⟩
    · exact ih (bid + 1) h1

theorem countObserved_mkSlots (bid : Int) (recs : List BookmarkCreate) :
    countObserved (mkSlots bid recs) = 0 := by
  induction recs generalizing bid with
  | nil => rfl
  | cons c cs ih =>
    rw [show mkSlots bid (c :: cs) =
      ({ bookmark := Bookmark.fromCreate bid c, content := none,
         pendingDates := [], observed := false } : BookmarkSlot) ::
        mkSlots (bid + 1) cs by simp [mkSlots]]
    rw [countObserved_cons_false _ _ rfl]
    exact ih (bid + 1)

theorem applyFailure_spec (mr : Nat) (b : Bookmark) (err : String) :
    (applyFailure mr b err).retry_count = b.retry_count + 1 ∧
    (b.retry_count + 1 < mr →
      (applyFailure mr b err).processing_status = .pending ∧
      (applyFailure mr b err).error_message = b.error_message) ∧
    (mr ≤ b.retry_count + 1 →
      (applyFailure mr b err).processing_status = .failed ∧
      (applyFailure mr b err).error_message = some err) := by
  unfold applyFailure
  by_cases h : b.retry_count + 1 < mr
  · rw [if_pos h]
    exact ⟨rfl, fun _ => ⟨rfl, rfl⟩, fun h2 => absurd h (by omega)⟩
  · rw [if_neg h]
    exact ⟨rfl, fun h1 => absurd h1 h, fun _ => ⟨rfl, rfl⟩⟩

theorem isTerminal_iff (st : ContentExtractionStatus) :
    st.isTerminal = true ↔ st = .completed ∨ st = .failed := by
  cases st <;> simp [ContentExtractionStatus.isTerminal]

theorem anyCompleted_iff (l : List BookmarkSlot) :
    anyCompleted l = true ↔
      ∃ sl ∈ l, sl.bookmark.processing_status = .completed := by
  simp [anyCompleted, List.any_eq_true]

theorem allFailed_iff (l : List BookmarkSlot) :
    allFailed l = true ↔
      ∀ sl ∈ l, sl.bookmark.processing_status = .failed := by
  simp [allFailed, List.all_eq_true]

theorem statusAt_spec (s : SystemState) (i : Nat)
    (st : ContentExtractionStatus) (h : statusAt s i = some st) :
    ∀ sl, s.slots[i]? = some sl → sl.bookmark.processing_status = st := by
  intro sl hsl
  unfold statusAt slotAt at h
  rw [hsl] at h
  simpa using h

theorem observedAt_spec (s : SystemState) (i : Nat) (b : Bool)
    (h : observedAt s i = some b) :
    ∀ sl, s.slots[i]? = some sl → sl.observed = b := by
  intro sl hsl
  unfold observedAt slotAt at h
  rw [hsl] at h
  simpa using h

theorem termAt_spec (s : SystemState) (i : Nat)
    (h : (statusAt s i).map ContentExtractionStatus.isTerminal = some true) :
    ∀ sl, s.slots[i]? = some sl →
      sl.bookmark.processing_status.isTerminal = true := by
  intro sl hsl
  unfold statusAt slotAt at h
  rw [hsl] at h
  simpa using h

theorem recentAt_spec (s : SystemState) (i : Nat) (b : Bool)
    (h : recentAt s i = some b) :
    ∀ sl, s.slots[i]? = some sl → ∃ ec, sl.content = some ec ∧
      hasRecentContentOf ec.extraction_time sl.pendingDates = b := by
  intro sl hsl
  unfold recentAt slotAt at h
  rw [hsl] at h
  replace h : Option.map
      (fun ec => hasRecentContentOf ec.extraction_time sl.pendingDates)
      sl.content = some b := h
  cases hec : sl.content with
  | none => rw [hec] at h; simp at h
  | some ec =>
    rw [hec] at h
    simp at h
    exact ⟨ec, rfl, h⟩

theorem statusAt_some (s : SystemState) (i : Nat)
    (st : ContentExtractionStatus) (h : statusAt s i = some st) :
    ∃ sl, s.slots[i]? = some sl := by
  unfold statusAt slotAt at h
  cases hsl : s.slots[i]? with
  | none => rw [hsl] at h; simp at h
  | some sl => exact ⟨sl, rfl⟩

theorem listUpd_ne_nil (l : List BookmarkSlot) (i : Nat)
    (f : BookmarkSlot → BookmarkSlot) (h : l ≠ []) : listUpd l i f ≠ [] := by
  cases l with
  | nil => exact absurd rfl h
  | cons x xs => cases i <;> simp [listUpd]

theorem Inv.updSlotPres (mr : Nat) (s : SystemState) (i : Nat)
    (f : BookmarkSlot → BookmarkSlot) (hInv : Inv mr s)
    (hup : s.upload.processing_status = .processing)
    (hobsf : ∀ sl, (f sl).observed = sl.observed)
    (hOT : ∀ sl, s.slots[i]? = some sl → (f sl).observed = true →
      (f sl).bookmark.processing_status.isTerminal = true)
    (hRB : ∀ sl, s.slots[i]? = some sl → 1 ≤ mr →
      (f sl).bookmark.retry_count ≤ mr ∧
      ((f sl).bookmark.processing_status.isTerminal = false →
        (f sl).bookmark.retry_count < mr))
    (hCI : ∀ sl, s.slots[i]? = some sl → ∀ ec, (f sl).content = some ec →
      ContentOk (f sl) ec)
    (hSI : ∀ sl, s.slots[i]? = some sl →
      (f sl).bookmark.processing_status = .summarizing →
      ∃ ec, (f sl).content = some ec ∧ ec.has_recent_content = true ∧
        ec.filtered_content ≠ none) :
    Inv mr (updSlot s i f) := by
  have hshape := hInv.shape
  unfold ShapeInv at hshape
  rw [hup] at hshape
  obtain ⟨htot, hne, hjob, hcnt⟩ := hshape
  refine ⟨?_, ?_, ?_, ?_, ?_, ?_⟩
  · show s.upload.processed_bookmarks = countObserved (listUpd s.slots i f)
    rw [countObserved_listUpd_of _ _ _ hobsf]
    exact hInv.processedEq
  · exact forall_mem_listUpd _ _ _ hInv.observedTerminal hOT
  · show ShapeBranch (updSlot s i f) s.upload.processing_status
    rw [hup]
    refine ⟨?_, ?_, hjob, ?_⟩
    · show s.upload.total_bookmarks = some (listUpd s.slots i f).length
      rw [listUpd_length]
      exact htot
    · exact listUpd_ne_nil _ _ _ hne
    · show countObserved (listUpd s.slots i f) <
        (listUpd s.slots i f).length
      rw [countObserved_listUpd_of _ _ _ hobsf, listUpd_length]
      exact hcnt
  · exact forall_mem_listUpd _ _ _ hInv.retryBound hRB
  · exact forall_mem_listUpd _ _ _ hInv.contentOk hCI
  · exact forall_mem_listUpd _ _ _ hInv.summarizingOk hSI

theorem getElem_inj (l : List BookmarkSlot) (i : Nat) (a b : BookmarkSlot)
    (h1 : l[i]? = some a) (h2 : l[i]? = some b) : a = b := by
  rw [h1] at h2
  injection h2

theorem terminal_not_completed (st : ContentExtractionStatus)
    (h1 : st.isTerminal = true) (h2 : st ≠ .completed) : st = .failed := by
  cases st <;> simp_all [ContentExtractionStatus.isTerminal]

theorem termAt_some (s : SystemState) (i : Nat)
    (h : (statusAt s i).map ContentExtractionStatus.isTerminal = some true) :
    ∃ sl, s.slots[i]? = some sl := by
  cases hsl : s.slots[i]? with
  | none =>
    unfold statusAt slotAt at h
    rw [hsl] at h
    simp at h
  | some sl => exact ⟨sl, rfl⟩

theorem inv_ingestOk (mr : Nat) (s : SystemState)
    (recs : List BookmarkCreate) (t : Int) (hInv : Inv mr s)
    (hst : s.upload.processing_status = .pending)
    (hrecs : recs ≠ []) :
    Inv mr
      { upload := { s.upload with
          processing_status := .processing
          total_bookmarks := some recs.length
          processing_started_at := some t }
        slots := mkSlots 0 recs
        summaryJob := s.summaryJob } := by
  have hshape := hInv.shape
  unfold ShapeInv at hshape
  rw [hst] at hshape
  obtain ⟨htot, hnil, hzero, hjobnone⟩ := hshape
  have hlen : (mkSlots 0 recs).length = recs.length := mkSlots_length _ _
  have hnnil : mkSlots 0 recs ≠ [] := by
    intro hc
    apply hrecs
    have hl := mkSlots_length 0 recs
    rw [hc] at hl
    cases recs with
    | nil => rfl
    | cons a b => simp at hl
  refine ⟨?_, ?_, ?_, ?_, ?_, ?_⟩
  · show s.upload.processed_bookmarks = countObserved (mkSlots 0 recs)
    rw [countObserved_mkSlots, hzero]
  · intro sl hslm hobs
    have hof := (mkSlots_mem _ _ sl hslm).1
    rw [hof] at hobs
    cases hobs
  · show ShapeBranch _ BookmarkStatus.processing
    refine ⟨?_, hnnil, hjobnone, ?_⟩
    · show some recs.length = some (mkSlots 0 recs).length
      rw [hlen]
    · show countObserved (mkSlots 0 recs) < (mkSlots 0 recs).length
      rw [countObserved_mkSlots, hlen]
      cases recs with
      | nil => exact absurd rfl hrecs
      | cons a b => simp
  · intro sl hslm hmr
    obtain ⟨_, hpend, hrc, _⟩ := mkSlots_mem _ _ sl hslm
    rw [hrc, hpend]
    exact ⟨by omega, fun _ => by omega⟩
  · intro sl hslm ec hec
    obtain ⟨_, _, _, hnone⟩ := mkSlots_mem _ _ sl hslm
    rw [hnone] at hec
    cases hec
  · intro sl hslm hsum
    obtain ⟨_, hpend, _, _⟩ := mkSlots_mem _ _ sl hslm
    rw [hpend] at hsum
    cases hsum

theorem inv_ingestFail (mr : Nat) (s : SystemState) (err : String) (t : Int)
    (hInv : Inv mr s)
    (hst : s.upload.processing_status = .pending)
    (hsl : s.slots = []) :
    Inv mr
      { upload := { s.upload with
          processing_status := .failed
          total_bookmarks := some 0
          error_message := some err
          processing_completed_at := some t }
        slots := s.slots
        summaryJob := s.summaryJob } := by
  have hshape := hInv.shape
  unfold ShapeInv at hshape
  rw [hst] at hshape
  obtain ⟨htot, hnil, hzero, hjobnone⟩ := hshape
  refine ⟨?_, ?_, ?_, ?_, ?_, ?_⟩
  · show s.upload.processed_bookmarks = countObserved s.slots
    rw [hsl, hzero]
    rfl
  · intro sl hm
    rw [hsl] at hm
    simp at hm
  · show ShapeBranch _ BookmarkStatus.failed
    exact Or.inl ⟨hsl, rfl, hzero, hjobnone⟩
  · intro sl hm
    rw [hsl] at hm
    simp at hm
  · intro sl hm
    rw [hsl] at hm
    simp at hm
  · intro sl hm
    rw [hsl] at hm
    simp at hm

theorem inv_jobSet (mr : Nat) (s : SystemState) (job : SummaryJob)
    (j' : SummaryJob) (hInv : Inv mr s) (hjob : s.summaryJob = some job) :
    Inv mr { s with summaryJob := some j' } := by
  refine ⟨hInv.processedEq, hInv.observedTerminal, ?_, hInv.retryBound,
    hInv.contentOk, hInv.summarizingOk⟩
  show ShapeBranch { s with summaryJob := some j' }
    s.upload.processing_status
  have hshape := hInv.shape
  unfold ShapeInv at hshape
  cases hst : s.upload.processing_status with
  | pending =>
    rw [hst] at hshape
    rw [hshape.2.2.2] at hjob
    exact Option.noConfusion hjob
  | processing =>
    rw [hst] at hshape
    rw [hshape.2.2.1] at hjob
    exact Option.noConfusion hjob
  | completed =>
    rw [hst] at hshape
    obtain ⟨h1, h2, h3, h4, h5, _⟩ := hshape
    exact ⟨h1, h2, h3, h4, h5, rfl⟩
  | failed =>
    rw [hst] at hshape
    rcases hshape with ⟨_, _, _, hjn⟩ | ⟨_, _, _, _, hjn⟩ <;>
      (rw [hjn] at hjob; exact Option.noConfusion hjob)

theorem inv_observeProgress (mr : Nat) (s : SystemState) (i : Nat)
    (hInv : Inv mr s)
    (hup : s.upload.processing_status = .processing)
    (hterm : (statusAt s i).map ContentExtractionStatus.isTerminal =
      some true)
    (hobs : observedAt s i = some false)
    (hmore : allObserved (listUpd s.slots i markObserved) = false) :
    Inv mr
      { upload := { s.upload with
          processed_bookmarks := s.upload.processed_bookmarks + 1 }
        slots := listUpd s.slots i markObserved
        summaryJob := s.summaryJob } := by
  obtain ⟨sl, hsl⟩ := termAt_some s i hterm
  have hslterm := termAt_spec s i hterm sl hsl
  have hslobs := observedAt_spec s i false hobs sl hsl
  have hshape := hInv.shape
  unfold ShapeInv at hshape
  rw [hup] at hshape
  obtain ⟨htot, hne, hjob, hcnt⟩ := hshape
  have hcnt1 := countObserved_listUpd_markObserved s.slots i sl hsl hslobs
  refine ⟨?_, ?_, ?_, ?_, ?_, ?_⟩
  · show s.upload.processed_bookmarks + 1 =
      countObserved (listUpd s.slots i markObserved)
    rw [hcnt1, hInv.processedEq]
  · refine forall_mem_listUpd _ _ _ hInv.observedTerminal ?_
    intro y hy _
    obtain rfl := getElem_inj s.slots i y sl hy hsl
    exact hslterm
  · show ShapeBranch
      { upload := { s.upload with
          processed_bookmarks := s.upload.processed_bookmarks + 1 }
        slots := listUpd s.slots i markObserved
        summaryJob := s.summaryJob } s.upload.processing_status
    rw [hup]
    refine ⟨?_, listUpd_ne_nil _ _ _ hne, hjob, ?_⟩
    · show s.upload.total_bookmarks =
        some (listUpd s.slots i markObserved).length
      rw [listUpd_length]
      exact htot
    · show countObserved (listUpd s.slots i markObserved) <
        (listUpd s.slots i markObserved).length
      have hub := countObserved_le (listUpd s.slots i markObserved)
      have hneq : countObserved (listUpd s.slots i markObserved) ≠
          (listUpd s.slots i markObserved).length := by
        intro hc
        have hcall := (allObserved_iff _).mpr hc
        rw [hmore] at hcall
        cases hcall
      omega
  · refine forall_mem_listUpd _ _ _ hInv.retryBound ?_
    intro y hy
    obtain rfl := getElem_inj s.slots i y sl hy hsl
    exact hInv.retryBound y (List.getElem?_mem hsl)
  · refine forall_mem_listUpd _ _ _ hInv.contentOk ?_
    intro y hy
    obtain rfl := getElem_inj s.slots i y sl hy hsl
    exact hInv.contentOk y (List.getElem?_mem hsl)
  · refine forall_mem_listUpd _ _ _ hInv.summarizingOk ?_
    intro y hy
    obtain rfl := getElem_inj s.slots i y sl hy hsl
    exact hInv.summarizingOk y (List.getElem?_mem hsl)

theorem inv_observeLastCompleted (mr : Nat) (s : SystemState) (i : Nat)
    (t : Int) (hInv : Inv mr s)
    (hup : s.upload.processing_status = .processing)
    (hterm : (statusAt s i).map ContentExtractionStatus.isTerminal =
      some true)
    (hobs : observedAt s i = some false)
    (hall : allObserved (listUpd s.slots i markObserved) = true)
    (hsome : anyCompleted s.slots = true) :
    Inv mr
      { upload := { s.upload with
          processed_bookmarks := s.upload.processed_bookmarks + 1
          processing_status := .completed
          processing_completed_at := some t }
        slots := listUpd s.slots i markObserved
        summaryJob := some (SummaryJob.fromCreate
          { upload_id := s.upload.id.getD 0 }) } := by
  obtain ⟨sl, hsl⟩ := termAt_some s i hterm
  have hslterm := termAt_spec s i hterm sl hsl
  have hslobs := observedAt_spec s i false hobs sl hsl
  have hshape := hInv.shape
  unfold ShapeInv at hshape
  rw [hup] at hshape
  obtain ⟨htot, hne, hjob, hcnt⟩ := hshape
  have hcnt1 := countObserved_listUpd_markObserved s.slots i sl hsl hslobs
  have hOT : ∀ y ∈ listUpd s.slots i markObserved, y.observed = true →
      y.bookmark.processing_status.isTerminal = true := by
    refine forall_mem_listUpd _ _ _ hInv.observedTerminal ?_
    intro y hy _
    obtain rfl := getElem_inj s.slots i y sl hy hsl
    exact hslterm
  have hallterm : ∀ y ∈ listUpd s.slots i markObserved,
      y.bookmark.processing_status.isTerminal = true := by
    intro y hy
    exact hOT y hy (List.all_eq_true.mp hall y hy)
  refine ⟨?_, hOT, ?_, ?_, ?_, ?_⟩
  · show s.upload.processed_bookmarks + 1 =
      countObserved (listUpd s.slots i markObserved)
    rw [hcnt1, hInv.processedEq]
  · show ShapeBranch _ BookmarkStatus.completed
    refine ⟨?_, listUpd_ne_nil _ _ _ hne, ?_, hallterm, ?_, rfl⟩
    · show s.upload.total_bookmarks =
        some (listUpd s.slots i markObserved).length
      rw [listUpd_length]
      exact htot
    · exact (allObserved_iff _).mp hall
    · refine (anyCompleted_iff _).mpr ?_
      refine exists_mem_listUpd _ _ _ (fun y hy => hy) ?_
      exact (anyCompleted_iff _).mp hsome
  · refine forall_mem_listUpd _ _ _ hInv.retryBound ?_
    intro y hy
    obtain rfl := getElem_inj s.slots i y sl hy hsl
    exact hInv.retryBound y (List.getElem?_mem hsl)
  · refine forall_mem_listUpd _ _ _ hInv.contentOk ?_
    intro y hy
    obtain rfl := getElem_inj s.slots i y sl hy hsl
    exact hInv.contentOk y (List.getElem?_mem hsl)
  · refine forall_mem_listUpd _ _ _ hInv.summarizingOk ?_
    intro y hy
    obtain rfl := getElem_inj s.slots i y sl hy hsl
    exact hInv.summarizingOk y (List.getElem?_mem hsl)

theorem inv_observeLastAllFailed (mr : Nat) (s : SystemState) (i : Nat)
    (err : String) (t : Int) (hInv : Inv mr s)
    (hup : s.upload.processing_status = .processing)
    (hterm : (statusAt s i).map ContentExtractionStatus.isTerminal =
      some true)
    (hobs : observedAt s i = some false)
    (hall : allObserved (listUpd s.slots i markObserved) = true)
    (hnone : anyCompleted s.slots = false) :
    Inv mr
      { upload := { s.upload with
          processed_bookmarks := s.upload.processed_bookmarks + 1
          processing_status := .failed
          error_message := some err
          processing_completed_at := some t }
        slots := listUpd s.slots i markObserved
        summaryJob := s.summaryJob } := by
  obtain ⟨sl, hsl⟩ := termAt_some s i hterm
  have hslterm := termAt_spec s i hterm sl hsl
  have hslobs := observedAt_spec s i false hobs sl hsl
  have hshape := hInv.shape
  unfold ShapeInv at hshape
  rw [hup] at hshape
  obtain ⟨htot, hne, hjob, hcnt⟩ := hshape
  have hcnt1 := countObserved_listUpd_markObserved s.slots i sl hsl hslobs
  have hOT : ∀ y ∈ listUpd s.slots i markObserved, y.observed = true →
      y.bookmark.processing_status.isTerminal = true := by
    refine forall_mem_listUpd _ _ _ hInv.observedTerminal ?_
    intro y hy _
    obtain rfl := getElem_inj s.slots i y sl hy hsl
    exact hslterm
  have hnotc : ∀ y ∈ listUpd s.slots i markObserved,
      y.bookmark.processing_status ≠ .completed := by
    refine forall_mem_listUpd _ _ _ ?_ ?_
    · intro x hx hc
      have hx2 := (anyCompleted_iff s.slots).mpr ⟨x, hx, hc⟩
      rw [hnone] at hx2
      cases hx2
    · intro y hy hc
      have hym := List.getElem?_mem hy
      have hy2 := (anyCompleted_iff s.slots).mpr ⟨y, hym, hc⟩
      rw [hnone] at hy2
      cases hy2
  have hallf : allFailed (listUpd s.slots i markObserved) = true := by
    refine (allFailed_iff _).mpr ?_
    intro y hy
    exact terminal_not_completed _
      (hOT y hy (List.all_eq_true.mp hall y hy)) (hnotc y hy)
  refine ⟨?_, hOT, ?_, ?_, ?_, ?_⟩
  · show s.upload.processed_bookmarks + 1 =
      countObserved (listUpd s.slots i markObserved)
    rw [hcnt1, hInv.processedEq]
  · show ShapeBranch _ BookmarkStatus.failed
    refine Or.inr ⟨?_, listUpd_ne_nil _ _ _ hne, ?_, hallf, hjob⟩
    · show s.upload.total_bookmarks =
        some (listUpd s.slots i markObserved).length
      rw [listUpd_length]
      exact htot
    · exact (allObserved_iff _).mp hall
  · refine forall_mem_listUpd _ _ _ hInv.retryBound ?_
    intro y hy
    obtain rfl := getElem_inj s.slots i y sl hy hsl
    exact hInv.retryBound y (List.getElem?_mem hsl)
  · refine forall_mem_listUpd _ _ _ hInv.contentOk ?_
    intro y hy
    obtain rfl := getElem_inj s.slots i y sl hy hsl
    exact hInv.contentOk y (List.getElem?_mem hsl)
  · refine forall_mem_listUpd _ _ _ hInv.summarizingOk ?_
    intro y hy
    obtain rfl := getElem_inj s.slots i y sl hy hsl
    exact hInv.summarizingOk y (List.getElem?_mem hsl)

theorem inv_bmDispatch (mr : Nat) (s : SystemState) (i : Nat) (t : Int)
    (hInv : Inv mr s)
    (hup : s.upload.processing_status = .processing)
    (hbm : statusAt s i = some .pending) :
    Inv mr (updSlot s i (fun sl =>
      { sl with bookmark := { sl.bookmark with
          processing_status := .extracting
          processing_started_at := some t } })) := by
  refine Inv.updSlotPres mr s i _ hInv hup (fun sl => rfl) ?_ ?_ ?_ ?_
  · intro y hy hfo
    have hyst := statusAt_spec s i _ hbm y hy
    have hterm := hInv.observedTerminal y (List.getElem?_mem hy) hfo
    rw [hyst] at hterm
    exact Bool.noConfusion hterm
  · intro y hy hmr
    obtain ⟨hle, hlt⟩ := hInv.retryBound y (List.getElem?_mem hy) hmr
    have hyst := statusAt_spec s i _ hbm y hy
    have hlt2 : y.bookmark.retry_count < mr := hlt (by rw [hyst]; decide)
    exact ⟨hle, fun _ => hlt2⟩
  · intro y hy ec hec
    have hyst := statusAt_spec s i _ hbm y hy
    have hold := hInv.contentOk y (List.getElem?_mem hy) ec hec
    refine ⟨hold.1, hold.2.1, hold.2.2.1, ?_⟩
    intro hs
    have hcc := hold.2.2.2 hs
    rw [hyst] at hcc
    exact ContentExtractionStatus.noConfusion hcc
  · intro y hy hsum
    exact ContentExtractionStatus.noConfusion hsum

theorem inv_bmExtractOk (mr : Nat) (s : SystemState) (i : Nat)
    (pageTitle : Option String) (pageUrl : String) (raw : String)
    (meta : List (String × String)) (method : String)
    (loadTime : Option ℚ) (dates : List Int) (t : Int)
    (hInv : Inv mr s)
    (hup : s.upload.processing_status = .processing)
    (hbm : statusAt s i = some .extracting) :
    Inv mr (updSlot s i (fun sl =>
      { sl with
        bookmark := { sl.bookmark with processing_status := .filtering }
        content := some (ExtractedContent.fromCreate
          { bookmark_id := sl.bookmark.id.getD 0
            page_title := pageTitle
            page_url := pageUrl
            raw_content := raw
            filtered_content := none
            content_date := none
            content_metadata := meta
            has_recent_content := false
            extraction_method := method
            page_load_time := loadTime } t)
        pendingDates := dates })) := by
  refine Inv.updSlotPres mr s i _ hInv hup (fun sl => rfl) ?_ ?_ ?_ ?_
  · intro y hy hfo
    have hyst := statusAt_spec s i _ hbm y hy
    have hterm := hInv.observedTerminal y (List.getElem?_mem hy) hfo
    rw [hyst] at hterm
    exact Bool.noConfusion hterm
  · intro y hy hmr
    obtain ⟨hle, hlt⟩ := hInv.retryBound y (List.getElem?_mem hy) hmr
    have hyst := statusAt_spec s i _ hbm y hy
    have hlt2 : y.bookmark.retry_count < mr := hlt (by rw [hyst]; decide)
    exact ⟨hle, fun _ => hlt2⟩
  · intro y hy ec hec
    replace hec : some (ExtractedContent.fromCreate
      { bookmark_id := y.bookmark.id.getD 0
        page_title := pageTitle
        page_url := pageUrl
        raw_content := raw
        filtered_content := none
        content_date := none
        content_metadata := meta
        has_recent_content := false
        extraction_method := method
        page_load_time := loadTime } t) = some ec := hec
    injection hec with hec
    rw [← hec]
    exact ⟨fun h => absurd rfl h, fun h => absurd rfl h,
      ⟨fun _ => rfl, fun _ => rfl⟩, fun h => absurd rfl h⟩
  · intro y hy hsum
    exact ContentExtractionStatus.noConfusion hsum

theorem inv_bmFail (mr : Nat) (s : SystemState) (i : Nat) (err : String)
    (st : ContentExtractionStatus) (hInv : Inv mr s)
    (hup : s.upload.processing_status = .processing)
    (hbm : statusAt s i = some st)
    (hnt : st.isTerminal = false) (hnc : st ≠ .completed) :
    Inv mr (updSlot s i (fun sl =>
      { sl with bookmark := applyFailure mr sl.bookmark err })) := by
  refine Inv.updSlotPres mr s i _ hInv hup (fun sl => rfl) ?_ ?_ ?_ ?_
  · intro y hy hfo
    have hyst := statusAt_spec s i _ hbm y hy
    have hterm := hInv.observedTerminal y (List.getElem?_mem hy) hfo
    rw [hyst, hnt] at hterm
    exact Bool.noConfusion hterm
  · intro y hy hmr
    obtain ⟨hle, hlt⟩ := hInv.retryBound y (List.getElem?_mem hy) hmr
    have hyst := statusAt_spec s i _ hbm y hy
    have hlt2 : y.bookmark.retry_count < mr := hlt (by rw [hyst]; exact hnt)
    obtain ⟨hrc, hpend, hfail⟩ := applyFailure_spec mr y.bookmark err
    constructor
    · show (applyFailure mr y.bookmark err).retry_count ≤ mr
      rw [hrc]
      omega
    · intro hterm2
      show (applyFailure mr y.bookmark err).retry_count < mr
      rw [hrc]
      by_cases hc : y.bookmark.retry_count + 1 < mr
      · exact hc
      · rw [(hfail (by omega)).1] at hterm2
        exact Bool.noConfusion hterm2
  · intro y hy ec hec
    have hyst := statusAt_spec s i _ hbm y hy
    have hold := hInv.contentOk y (List.getElem?_mem hy) ec hec
    refine ⟨hold.1, hold.2.1, hold.2.2.1, ?_⟩
    intro hs
    have hcc := hold.2.2.2 hs
    rw [hyst] at hcc
    exact absurd hcc hnc
  · intro y hy hsum
    obtain ⟨hrc, hpend, hfail⟩ := applyFailure_spec mr y.bookmark err
    by_cases hc : y.bookmark.retry_count + 1 < mr
    · rw [show (applyFailure mr y.bookmark err).processing_status = .pending
        from (hpend hc).1] at hsum
      exact ContentExtractionStatus.noConfusion hsum
    · rw [show (applyFailure mr y.bookmark err).processing_status = .failed
        from (hfail (by omega)).1] at hsum
      exact ContentExtractionStatus.noConfusion hsum

theorem inv_bmFilterNoRecent (mr : Nat) (s : SystemState) (i : Nat) (t : Int)
    (hInv : Inv mr s)
    (hup : s.upload.processing_status = .processing)
    (hbm : statusAt s i = some .filtering) :
    Inv mr (updSlot s i (fun sl =>
      { sl with
        bookmark := { sl.bookmark with
          processing_status := .completed
          processing_completed_at := some t }
        content := sl.content.map (fun ec =>
          { ec with
            has_recent_content := false
            filtered_content := none
            content_date := none })
        pendingDates := [] })) := by
  refine Inv.updSlotPres mr s i _ hInv hup (fun sl => rfl) ?_ ?_ ?_ ?_
  · intro y hy _
    rfl
  · intro y hy hmr
    obtain ⟨hle, _⟩ := hInv.retryBound y (List.getElem?_mem hy) hmr
    exact ⟨hle, fun hterm2 => Bool.noConfusion hterm2⟩
  · intro y hy ec hec
    have hyst := statusAt_spec s i _ hbm y hy
    cases hc : y.content with
    | none =>
      rw [hc] at hec
      exact Option.noConfusion hec
    | some ec0 =>
      rw [hc] at hec
      replace hec : some ({ ec0 with
        has_recent_content := false
        filtered_content := none
        content_date := none } : ExtractedContent) = some ec := hec
      injection hec with hec
      have hold := hInv.contentOk y (List.getElem?_mem hy) ec0 hc
      have hsummone : ec0.content_summary = none := by
        by_contra hns
        have hcc := hold.2.2.2 hns
        rw [hyst] at hcc
        exact ContentExtractionStatus.noConfusion hcc
      have hgen : ec0.summary_generated_at = none := hold.2.2.1.mp hsummone
      rw [← hec]
      refine ⟨fun h => absurd rfl h, ?_, ?_, ?_⟩
      · intro h
        exact absurd hsummone h
      · exact ⟨fun _ => hgen, fun _ => hsummone⟩
      · intro h
        exact absurd hsummone h
  · intro y hy hsum
    exact ContentExtractionStatus.noConfusion hsum

theorem inv_bmFilterRecent (mr : Nat) (s : SystemState) (i : Nat)
    (fc : String) (hInv : Inv mr s)
    (hup : s.upload.processing_status = .processing)
    (hbm : statusAt s i = some .filtering)
    (hrec : recentAt s i = some true) :
    Inv mr (updSlot s i (fun sl =>
      { sl with
        bookmark := { sl.bookmark with processing_status := .summarizing }
        content := sl.content.map (fun ec =>
          { ec with
            has_recent_content := true
            filtered_content := some fc
            content_date := latestQualifying ec.extraction_time
              sl.pendingDates })
        pendingDates := [] })) := by
  refine Inv.updSlotPres mr s i _ hInv hup (fun sl => rfl) ?_ ?_ ?_ ?_
  · intro y hy hfo
    have hyst := statusAt_spec s i _ hbm y hy
    have hterm := hInv.observedTerminal y (List.getElem?_mem hy) hfo
    rw [hyst] at hterm
    exact Bool.noConfusion hterm
  · intro y hy hmr
    obtain ⟨hle, hlt⟩ := hInv.retryBound y (List.getElem?_mem hy) hmr
    have hyst := statusAt_spec s i _ hbm y hy
    have hlt2 : y.bookmark.retry_count < mr := hlt (by rw [hyst]; decide)
    exact ⟨hle, fun _ => hlt2⟩
  · intro y hy ec hec
    have hyst := statusAt_spec s i _ hbm y hy
    cases hc : y.content with
    | none =>
      rw [hc] at hec
      exact Option.noConfusion hec
    | some ec0 =>
      rw [hc] at hec
      replace hec : some ({ ec0 with
        has_recent_content := true
        filtered_content := some fc
        content_date := latestQualifying ec0.extraction_time
          y.pendingDates } : ExtractedContent) = some ec := hec
      injection hec with hec
      have hold := hInv.contentOk y (List.getElem?_mem hy) ec0 hc
      have hsummone : ec0.content_summary = none := by
        by_contra hns
        have hcc := hold.2.2.2 hns
        rw [hyst] at hcc
        exact ContentExtractionStatus.noConfusion hcc
      have hgen : ec0.summary_generated_at = none := hold.2.2.1.mp hsummone
      rw [← hec]
      refine ⟨fun _ => rfl, ?_, ?_, ?_⟩
      · intro _
        exact Option.some_ne_none fc
      · exact ⟨fun _ => hgen, fun _ => hsummone⟩
      · intro h
        exact absurd hsummone h
  · intro y hy hsum
    obtain ⟨ec0, hc, hrecb⟩ := recentAt_spec s i true hrec y hy
    refine ⟨{ ec0 with
      has_recent_content := true
      filtered_content := some fc
      content_date := latestQualifying ec0.extraction_time
        y.pendingDates }, ?_, rfl, ?_⟩
    · show Option.map _ y.content = _
      rw [hc]
      exact Option.map_some' _ _
    · exact Option.some_ne_none fc

theorem inv_bmSummarizeOk (mr : Nat) (s : SystemState) (i : Nat)
    (u : ContentSummaryUpdate) (t : Int) (hInv : Inv mr s)
    (hup : s.upload.processing_status = .processing)
    (hbm : statusAt s i = some .summarizing) :
    Inv mr (updSlot s i (fun sl =>
      { sl with
        bookmark := { sl.bookmark with
          processing_status := .completed
          processing_completed_at := some t }
        content := sl.content.map (fun ec => applySummaryUpdate ec u) })) := by
  refine Inv.updSlotPres mr s i _ hInv hup (fun sl => rfl) ?_ ?_ ?_ ?_
  · intro y hy _
    rfl
  · intro y hy hmr
    obtain ⟨hle, _⟩ := hInv.retryBound y (List.getElem?_mem hy) hmr
    exact ⟨hle, fun hterm2 => Bool.noConfusion hterm2⟩
  · intro y hy ec hec
    have hyst := statusAt_spec s i _ hbm y hy
    obtain ⟨ec1, hce1, hrecent, hfilt⟩ :=
      hInv.summarizingOk y (List.getElem?_mem hy) hyst
    cases hc : y.content with
    | none =>
      rw [hc] at hec
      exact Option.noConfusion hec
    | some ec0 =>
      have hec10 : ec1 = ec0 := by
        rw [hc] at hce1
        injection hce1 with h
        exact h.symm
      subst hec10
      rw [hc] at hec
      replace hec : some (applySummaryUpdate ec1 u) = some ec := hec
      injection hec with hec
      rw [← hec]
      refine ⟨fun _ => hrecent, fun _ => hfilt, ?_, fun _ => rfl⟩
      constructor
      · intro h
        exact Option.noConfusion h
      · intro h
        exact Option.noConfusion h
  · intro y hy hsum
    exact ContentExtractionStatus.noConfusion hsum

theorem Inv.ofInit (mr : Nat) (s : SystemState) (h : IsInit s) :
    Inv mr s := by
  obtain ⟨h1, h2, h3, _, _, _, h7, h8⟩ := h
  refine ⟨?_, ?_, ?_, ?_, ?_, ?_⟩
  · rw [h3, h7]; rfl
  · rw [h7]; intro sl hsl; simp at hsl
  · show ShapeBranch s s.upload.processing_status
    rw [h1]
    exact ⟨h2, h7, h3, h8⟩
  · rw [h7]; intro sl hsl; simp at hsl
  · rw [h7]; intro sl hsl; simp at hsl
  · rw [h7]; intro sl hsl; simp at hsl

theorem inv_step (mr : Nat) (s s' : SystemState) (hInv : Inv mr s)
    (hstep : Step mr s s') : Inv mr s' := by
  cases hstep with
  | ingestOk recs t hst hsl hrecs hown =>
    exact inv_ingestOk mr s recs t hInv hst hrecs
  | ingestFail err t hst hsl =>
    exact inv_ingestFail mr s err t hInv hst hsl
  | bmDispatch i t hup hbm =>
    exact inv_bmDispatch mr s i t hInv hup hbm
  | bmExtractOk i pageTitle pageUrl raw meta method loadTime dates t
      hup hbm =>
    exact inv_bmExtractOk mr s i pageTitle pageUrl raw meta method loadTime
      dates t hInv hup hbm
  | bmExtractFail i err hup hbm =>
    exact inv_bmFail mr s i err .extracting hInv hup hbm rfl (by decide)
  | bmFilterNoRecent i t hup hbm hrec =>
    exact inv_bmFilterNoRecent mr s i t hInv hup hbm
  | bmFilterRecent i fc hup hbm hrec =>
    exact inv_bmFilterRecent mr s i fc hInv hup hbm hrec
  | bmSummarizeOk i u t hup hbm =>
    exact inv_bmSummarizeOk mr s i u t hInv hup hbm
  | bmSummarizeFail i err hup hbm =>
    exact inv_bmFail mr s i err .summarizing hInv hup hbm rfl (by decide)
  | observeProgress i hup hterm hobs hmore =>
    exact inv_observeProgress mr s i hInv hup hterm hobs hmore
  | observeLastCompleted i t hup hterm hobs hall hsome =>
    exact inv_observeLastCompleted mr s i t hInv hup hterm hobs hall hsome
  | observeLastAllFailed i err t hup hterm hobs hall hnone =>
    exact inv_observeLastAllFailed mr s i err t hInv hup hterm hobs hall
      hnone
  | jobStart job t hjob hst =>
    exact inv_jobSet mr s job _ hInv hjob
  | jobComplete job f modelName tok t hjob hst =>
    exact inv_jobSet mr s job _ hInv hjob
  | jobFail job err hjob hst =>
    exact inv_jobSet mr s job _ hInv hjob

theorem inv_reachable (mr : Nat) (s : SystemState) (h : Reachable mr s) :
    Inv mr s := by
  obtain ⟨s0, hinit, hrtg⟩ := h
  induction hrtg with
  | refl => exact Inv.ofInit mr s0 hinit
  | tail h1 h2 ih => exact inv_step mr _ _ ih h2

theorem slots_upd_case (s : SystemState) (j : Nat)
    (f : BookmarkSlot → BookmarkSlot) (i : Nat) (sl sl' : BookmarkSlot)
    (hsl : s.slots[i]? = some sl)
    (hsl' : (listUpd s.slots j f)[i]? = some sl') :
    (i = j ∧ sl' = f sl) ∨ sl' = sl := by
  by_cases hij : i = j
  · subst hij
    rw [listUpd_getElem_self, hsl] at hsl'
    replace hsl' : some (f sl) = some sl' := hsl'
    injection hsl' with h
    exact Or.inl ⟨rfl, h.symm⟩
  · rw [listUpd_getElem_ne _ _ _ _ hij] at hsl'
    obtain rfl := getElem_inj _ _ _ _ hsl' hsl
    exact Or.inr rfl

theorem step_processed_mono (mr : Nat) (s s' : SystemState)
    (h : Step mr s s') :
    s.upload.processed_bookmarks ≤ s'.upload.processed_bookmarks := by
  cases h <;> first
    | exact Nat.le_refl _
    | exact Nat.le_succ _

theorem rtg_processed_mono (mr : Nat) (s s' : SystemState)
    (h : Relation.ReflTransGen (Step mr) s s') :
    s.upload.processed_bookmarks ≤ s'.upload.processed_bookmarks := by
  induction h with
  | refl => exact Nat.le_refl _
  | tail h1 h2 ih => exact Nat.le_trans ih (step_processed_mono mr _ _ h2)

theorem step_terminal_absorbing (mr : Nat) (s s' : SystemState) (i : Nat)
    (sl sl' : BookmarkSlot) (h : Step mr s s')
    (hsl : s.slots[i]? = some sl)
    (hterm : sl.bookmark.processing_status.isTerminal = true)
    (hsl' : s'.slots[i]? = some sl') : sl'.bookmark = sl.bookmark := by
  cases h with
  | ingestOk recs t hst hslnil hrecs hown =>
    rw [hslnil] at hsl
    simp at hsl
  | ingestFail err t hst hslnil =>
    obtain rfl := getElem_inj s.slots i sl' sl hsl' hsl
    rfl
  | bmDispatch j t hup hbm =>
    rcases slots_upd_case s j _ i sl sl' hsl hsl' with ⟨rfl, rfl⟩ | rfl
    · have hyst := statusAt_spec s i _ hbm sl hsl
      rw [hyst] at hterm
      exact Bool.noConfusion hterm
    · rfl
  | bmExtractOk j pageTitle pageUrl raw meta method loadTime dates t
      hup hbm =>
    rcases slots_upd_case s j _ i sl sl' hsl hsl' with ⟨rfl, rfl⟩ | rfl
    · have hyst := statusAt_spec s i _ hbm sl hsl
      rw [hyst] at hterm
      exact Bool.noConfusion hterm
    · rfl
  | bmExtractFail j err hup hbm =>
    rcases slots_upd_case s j _ i sl sl' hsl hsl' with ⟨rfl, rfl⟩ | rfl
    · have hyst := statusAt_spec s i _ hbm sl hsl
      rw [hyst] at hterm
      exact Bool.noConfusion hterm
    · rfl
  | bmFilterNoRecent j t hup hbm hrec =>
    rcases slots_upd_case s j _ i sl sl' hsl hsl' with ⟨rfl, rfl⟩ | rfl
    · have hyst := statusAt_spec s i _ hbm sl hsl
      rw [hyst] at hterm
      exact Bool.noConfusion hterm
    · rfl
  | bmFilterRecent j fc hup hbm hrec =>
    rcases slots_upd_case s j _ i sl sl' hsl hsl' with ⟨rfl, rfl⟩ | rfl
    · have hyst := statusAt_spec s i _ hbm sl hsl
      rw [hyst] at hterm
      exact Bool.noConfusion hterm
    · rfl
  | bmSummarizeOk j u t hup hbm =>
    rcases slots_upd_case s j _ i sl sl' hsl hsl' with ⟨rfl, rfl⟩ | rfl
    · have hyst := statusAt_spec s i _ hbm sl hsl
      rw [hyst] at hterm
      exact Bool.noConfusion hterm
    · rfl
  | bmSummarizeFail j err hup hbm =>
    rcases slots_upd_case s j _ i sl sl' hsl hsl' with ⟨rfl, rfl⟩ | rfl
    · have hyst := statusAt_spec s i _ hbm sl hsl
      rw [hyst] at hterm
      exact Bool.noConfusion hterm
    · rfl
  | observeProgress j hup hterm2 hobs hmore =>
    rcases slots_upd_case s j markObserved i sl sl' hsl hsl' with
      ⟨rfl, rfl⟩ | rfl <;> rfl
  | observeLastCompleted j t hup hterm2 hobs hall hsome =>
    rcases slots_upd_case s j markObserved i sl sl' hsl hsl' with
      ⟨rfl, rfl⟩ | rfl <;> rfl
  | observeLastAllFailed j err t hup hterm2 hobs hall hnone =>
    rcases slots_upd_case s j markObserved i sl sl' hsl hsl' with
      ⟨rfl, rfl⟩ | rfl <;> rfl
  | jobStart job t hjob hst =>
    obtain rfl := getElem_inj s.slots i sl' sl hsl' hsl
    rfl
  | jobComplete job f modelName tok t hjob hst =>
    obtain rfl := getElem_inj s.slots i sl' sl hsl' hsl
    rfl
  | jobFail job err hjob hst =>
    obtain rfl := getElem_inj s.slots i sl' sl hsl' hsl
    rfl

theorem job_implies_completed (mr : Nat) (s : SystemState)
    (job : SummaryJob) (hInv : Inv mr s) (hj : s.summaryJob = some job) :
    s.upload.processing_status = .completed := by
  have hshape := hInv.shape
  unfold ShapeInv at hshape
  cases hst : s.upload.processing_status with
  | pending =>
    rw [hst] at hshape
    rw [hshape.2.2.2] at hj
    exact Option.noConfusion hj
  | processing =>
    rw [hst] at hshape
    rw [hshape.2.2.1] at hj
    exact Option.noConfusion hj
  | completed => rfl
  | failed =>
    rw [hst] at hshape
    rcases hshape with ⟨_, _, _, hjn⟩ | ⟨_, _, _, _, hjn⟩ <;>
      (rw [hjn] at hj; exact Option.noConfusion hj)

theorem step_retry_inversion (mr : Nat) (s s' : SystemState) (i : Nat)
    (sl sl' : BookmarkSlot) (h : Step mr s s')
    (hsl : s.slots[i]? = some sl) (hsl' : s'.slots[i]? = some sl')
    (hne : sl'.bookmark.retry_count ≠ sl.bookmark.retry_count) :
    (sl.bookmark.processing_status = .extracting ∨
      sl.bookmark.processing_status = .summarizing) ∧
    sl'.bookmark.retry_count = sl.bookmark.retry_count + 1 ∧
    (sl.bookmark.retry_count + 1 < mr →
      sl'.bookmark.processing_status = .pending) ∧
    (mr ≤ sl.bookmark.retry_count + 1 →
      sl'.bookmark.processing_status = .failed ∧
      sl'.bookmark.error_message ≠ none) := by
  cases h with
  | ingestOk recs t hst hslnil hrecs hown =>
    rw [hslnil] at hsl
    simp at hsl
  | ingestFail err t hst hslnil =>
    obtain rfl := getElem_inj s.slots i sl' sl hsl' hsl
    exact absurd rfl hne
  | bmDispatch j t hup hbm =>
    rcases slots_upd_case s j _ i sl sl' hsl hsl' with ⟨rfl, rfl⟩ | rfl <;>
      exact absurd rfl hne
  | bmExtractOk j pageTitle pageUrl raw meta method loadTime dates t
      hup hbm =>
    rcases slots_upd_case s j _ i sl sl' hsl hsl' with ⟨rfl, rfl⟩ | rfl <;>
      exact absurd rfl hne
  | bmExtractFail j err hup hbm =>
    rcases slots_upd_case s j _ i sl sl' hsl hsl' with ⟨rfl, rfl⟩ | rfl
    · have hyst := statusAt_spec s i _ hbm sl hsl
      obtain ⟨hrc, hpend, hfail⟩ := applyFailure_spec mr sl.bookmark err
      refine ⟨Or.inl hyst, hrc, fun hlt => (hpend hlt).1, fun hge =>
        ⟨(hfail hge).1, ?_⟩⟩
      rw [show ({ sl with bookmark := applyFailure mr sl.bookmark err }
        : BookmarkSlot).bookmark.error_message = some err
        from (hfail hge).2]
      exact Option.some_ne_none err
    · exact absurd rfl hne
  | bmFilterNoRecent j t hup hbm hrec =>
    rcases slots_upd_case s j _ i sl sl' hsl hsl' with ⟨rfl, rfl⟩ | rfl <;>
      exact absurd rfl hne
  | bmFilterRecent j fc hup hbm hrec =>
    rcases slots_upd_case s j _ i sl sl' hsl hsl' with ⟨rfl, rfl⟩ | rfl <;>
      exact absurd rfl hne
  | bmSummarizeOk j u t hup hbm =>
    rcases slots_upd_case s j _ i sl sl' hsl hsl' with ⟨rfl, rfl⟩ | rfl <;>
      exact absurd rfl hne
  | bmSummarizeFail j err hup hbm =>
    rcases slots_upd_case s j _ i sl sl' hsl hsl' with ⟨rfl, rfl⟩ | rfl
    · have hyst := statusAt_spec s i _ hbm sl hsl
      obtain ⟨hrc, hpend, hfail⟩ := applyFailure_spec mr sl.bookmark err
      refine ⟨Or.inr hyst, hrc, fun hlt => (hpend hlt).1, fun hge =>
        ⟨(hfail hge).1, ?_⟩⟩
      rw [show ({ sl with bookmark := applyFailure mr sl.bookmark err }
        : BookmarkSlot).bookmark.error_message = some err
        from (hfail hge).2]
      exact Option.some_ne_none err
    · exact absurd rfl hne
  | observeProgress j hup hterm2 hobs hmore =>
    rcases slots_upd_case s j markObserved i sl sl' hsl hsl' with
      ⟨rfl, rfl⟩ | rfl <;> exact absurd rfl hne
  | observeLastCompleted j t hup hterm2 hobs hall hsome =>
    rcases slots_upd_case s j markObserved i sl sl' hsl hsl' with
      ⟨rfl, rfl⟩ | rfl <;> exact absurd rfl hne
  | observeLastAllFailed j err t hup hterm2 hobs hall hnone =>
    rcases slots_upd_case s j markObserved i sl sl' hsl hsl' with
      ⟨rfl, rfl⟩ | rfl <;> exact absurd rfl hne
  | jobStart job t hjob hst =>
    obtain rfl := getElem_inj s.slots i sl' sl hsl' hsl
    exact absurd rfl hne
  | jobComplete job f modelName tok t hjob hst =>
    obtain rfl := getElem_inj s.slots i sl' sl hsl' hsl
    exact absurd rfl hne
  | jobFail job err hjob hst =>
    obtain rfl := getElem_inj s.slots i sl' sl hsl' hsl
    exact absurd rfl hne

theorem step_job_completion (mr : Nat) (s s' : SystemState)
    (job job' : SummaryJob) (h : Step mr s s')
    (hj : s.summaryJob = some job) (hpr : job.status = .processing)
    (hj' : s'.summaryJob = some job') (hco : job'.status = .completed) :
    job'.bookmarks_included = (selectNuggets s.slots).length ∧
    (∃ f, job'.final_summary =
      some (finalDigestText (selectNuggets s.slots) f)) := by
  cases h with
  | ingestOk recs t hst hslnil hrecs hown =>
    replace hj' : s.summaryJob = some job' := hj'
    rw [hj] at hj'
    injection hj' with he
    rw [← he, hpr] at hco
    exact SummaryJobStatus.noConfusion hco
  | ingestFail err t hst hslnil =>
    replace hj' : s.summaryJob = some job' := hj'
    rw [hj] at hj'
    injection hj' with he
    rw [← he, hpr] at hco
    exact SummaryJobStatus.noConfusion hco
  | bmDispatch j t hup hbm =>
    replace hj' : s.summaryJob = some job' := hj'
    rw [hj] at hj'
    injection hj' with he
    rw [← he, hpr] at hco
    exact SummaryJobStatus.noConfusion hco
  | bmExtractOk j pageTitle pageUrl raw meta method loadTime dates t
      hup hbm =>
    replace hj' : s.summaryJob = some job' := hj'
    rw [hj] at hj'
    injection hj' with he
    rw [← he, hpr] at hco
    exact SummaryJobStatus.noConfusion hco
  | bmExtractFail j err hup hbm =>
    replace hj' : s.summaryJob = some job' := hj'
    rw [hj] at hj'
    injection hj' with he
    rw [← he, hpr] at hco
    exact SummaryJobStatus.noConfusion hco
  | bmFilterNoRecent j t hup hbm hrec =>
    replace hj' : s.summaryJob = some job' := hj'
    rw [hj] at hj'
    injection hj' with he
    rw [← he, hpr] at hco
    exact SummaryJobStatus.noConfusion hco
  | bmFilterRecent j fc hup hbm hrec =>
    replace hj' : s.summaryJob = some job' := hj'
    rw [hj] at hj'
    injection hj' with he
    rw [← he, hpr] at hco
    exact SummaryJobStatus.noConfusion hco
  | bmSummarizeOk j u t hup hbm =>
    replace hj' : s.summaryJob = some job' := hj'
    rw [hj] at hj'
    injection hj' with he
    rw [← he, hpr] at hco
    exact SummaryJobStatus.noConfusion hco
  | bmSummarizeFail j err hup hbm =>
    replace hj' : s.summaryJob = some job' := hj'
    rw [hj] at hj'
    injection hj' with he
    rw [← he, hpr] at hco
    exact SummaryJobStatus.noConfusion hco
  | observeProgress j hup hterm2 hobs hmore =>
    replace hj' : s.summaryJob = some job' := hj'
    rw [hj] at hj'
    injection hj' with he
    rw [← he, hpr] at hco
    exact SummaryJobStatus.noConfusion hco
  | observeLastCompleted j t hup hterm2 hobs hall hsome =>
    replace hj' : some (SummaryJob.fromCreate
      { upload_id := s.upload.id.getD 0 }) = some job' := hj'
    injection hj' with he
    rw [← he] at hco
    exact SummaryJobStatus.noConfusion hco
  | observeLastAllFailed j err t hup hterm2 hobs hall hnone =>
    replace hj' : s.summaryJob = some job' := hj'
    rw [hj] at hj'
    injection hj' with he
    rw [← he, hpr] at hco
    exact SummaryJobStatus.noConfusion hco
  | jobStart job0 t hjob hst =>
    rw [hj] at hjob
    injection hjob with he
    subst he
    replace hj' : some ({ job with
      status := SummaryJobStatus.processing
      started_at := some t } : SummaryJob) = some job' := hj'
    injection hj' with he2
    rw [← he2] at hco
    exact SummaryJobStatus.noConfusion hco
  | jobComplete job0 f modelName tok t hjob hst =>
    rw [hj] at hjob
    injection hjob with he
    subst he
    replace hj' : some ({ job with
      status := SummaryJobStatus.completed
      completed_at := some t
      bookmarks_included := (selectNuggets s.slots).length
      final_summary := some (finalDigestText (selectNuggets s.slots) f)
      llm_model_used := some modelName
      token_count := some tok } : SummaryJob) = some job' := hj'
    injection hj' with he2
    rw [← he2]
    exact ⟨rfl, ⟨f, rfl⟩⟩
  | jobFail job0 err hjob hst =>
    rw [hj] at hjob
    injection hjob with he
    subst he
    replace hj' : some ({ job with
      status := SummaryJobStatus.failed
      error_message := some err } : SummaryJob) = some job' := hj'
    injection hj' with he2
    rw [← he2] at hco
    exact SummaryJobStatus.noConfusion hco

theorem step_job_failure (mr : Nat) (s s' : SystemState)
    (job job' : SummaryJob) (h : Step mr s s')
    (hj : s.summaryJob = some job) (hpr : job.status = .processing)
    (hj' : s'.summaryJob = some job') (hfa : job'.status = .failed) :
    s'.upload = s.upload ∧ s'.slots = s.slots ∧
    job'.error_message ≠ none ∧
    job'.upload_id = job.upload_id ∧
    job'.started_at = job.started_at ∧
    job'.completed_at = job.completed_at ∧
    job'.bookmarks_included = job.bookmarks_included ∧
    job'.final_summary = job.final_summary ∧
    job'.summary_metadata = job.summary_metadata ∧
    job'.llm_model_used = job.llm_model_used ∧
    job'.token_count = job.token_count := by
  cases h with
  | ingestOk recs t hst hslnil hrecs hown =>
    replace hj' : s.summaryJob = some job' := hj'
    rw [hj] at hj'
    injection hj' with he
    rw [← he, hpr] at hfa
    exact SummaryJobStatus.noConfusion hfa
  | ingestFail err t hst hslnil =>
    replace hj' : s.summaryJob = some job' := hj'
    rw [hj] at hj'
    injection hj' with he
    rw [← he, hpr] at hfa
    exact SummaryJobStatus.noConfusion hfa
  | bmDispatch j t hup hbm =>
    replace hj' : s.summaryJob = some job' := hj'
    rw [hj] at hj'
    injection hj' with he
    rw [← he, hpr] at hfa
    exact SummaryJobStatus.noConfusion hfa
  | bmExtractOk j pageTitle pageUrl raw meta method loadTime dates t
      hup hbm =>
    replace hj' : s.summaryJob = some job' := hj'
    rw [hj] at hj'
    injection hj' with he
    rw [← he, hpr] at hfa
    exact SummaryJobStatus.noConfusion hfa
  | bmExtractFail j err hup hbm =>
    replace hj' : s.summaryJob = some job' := hj'
    rw [hj] at hj'
    injection hj' with he
    rw [← he, hpr] at hfa
    exact SummaryJobStatus.noConfusion hfa
  | bmFilterNoRecent j t hup hbm hrec =>
    replace hj' : s.summaryJob = some job' := hj'
    rw [hj] at hj'
    injection hj' with he
    rw [← he, hpr] at hfa
    exact SummaryJobStatus.noConfusion hfa
  | bmFilterRecent j fc hup hbm hrec =>
    replace hj' : s.summaryJob = some job' := hj'
    rw [hj] at hj'
    injection hj' with he
    rw [← he, hpr] at hfa
    exact SummaryJobStatus.noConfusion hfa
  | bmSummarizeOk j u t hup hbm =>
    replace hj' : s.summaryJob = some job' := hj'
    rw [hj] at hj'
    injection hj' with he
    rw [← he, hpr] at hfa
    exact SummaryJobStatus.noConfusion hfa
  | bmSummarizeFail j err hup hbm =>
    replace hj' : s.summaryJob = some job' := hj'
    rw [hj] at hj'
    injection hj' with he
    rw [← he, hpr] at hfa
    exact SummaryJobStatus.noConfusion hfa
  | observeProgress j hup hterm2 hobs hmore =>
    replace hj' : s.summaryJob = some job' := hj'
    rw [hj] at hj'
    injection hj' with he
    rw [← he, hpr] at hfa
    exact SummaryJobStatus.noConfusion hfa
  | observeLastCompleted j t hup hterm2 hobs hall hsome =>
    replace hj' : some (SummaryJob.fromCreate
      { upload_id := s.upload.id.getD 0 }) = some job' := hj'
    injection hj' with he
    rw [← he] at hfa
    exact SummaryJobStatus.noConfusion hfa
  | observeLastAllFailed j err t hup hterm2 hobs hall hnone =>
    replace hj' : s.summaryJob = some job' := hj'
    rw [hj] at hj'
    injection hj' with he
    rw [← he, hpr] at hfa
    exact SummaryJobStatus.noConfusion hfa
  | jobStart job0 t hjob hst =>
    rw [hj] at hjob
    injection hjob with he
    subst he
    replace hj' : some ({ job with
      status := SummaryJobStatus.processing
      started_at := some t } : SummaryJob) = some job' := hj'
    injection hj' with he2
    rw [← he2] at hfa
    exact SummaryJobStatus.noConfusion hfa
  | jobComplete job0 f modelName tok t hjob hst =>
    rw [hj] at hjob
    injection hjob with he
    subst he
    replace hj' : some ({ job with
      status := SummaryJobStatus.completed
      completed_at := some t
      bookmarks_included := (selectNuggets s.slots).length
      final_summary := some (finalDigestText (selectNuggets s.slots) f)
      llm_model_used := some modelName
      token_count := some tok } : SummaryJob) = some job' := hj'
    injection hj' with he2
    rw [← he2] at hfa
    exact SummaryJobStatus.noConfusion hfa
  | jobFail job0 err hjob hst =>
    rw [hj] at hjob
    injection hjob with he
    subst he
    replace hj' : some ({ job with
      status := SummaryJobStatus.failed
      error_message := some err } : SummaryJob) = some job' := hj'
    injection hj' with he2
    rw [← he2]
    exact ⟨rfl, rfl, Option.some_ne_none err, rfl, rfl, rfl, rfl, rfl,
      rfl, rfl, rfl⟩

theorem reach_stB16 : Reachable 3 stB16 :=
  ⟨state0, by decide,
    .head (Step.ingestOk state0 [recB1, recB2, recB3] 1 rfl rfl
      (by decide) (by decide))
    (.head (Step.bmDispatch stB1 0 2 rfl rfl)
    (.head (Step.bmExtractOk stB2 0 none "https://one.example/final"
      "raw one" [] "readability" none [100] 100 rfl rfl)
    (.head (Step.bmFilterRecent stB3 0 "recent one" rfl rfl rfl)
    (.head (Step.bmSummarizeOk stB4 0
      { content_summary := "alpha", summary_generated_at := 101 } 102
      rfl rfl)
    (.head (Step.bmDispatch stB5 1 3 rfl rfl)
    (.head (Step.bmExtractOk stB6 1 none "https://two.example/final"
      "raw two" [] "readability" none [200] 200 rfl rfl)
    (.head (Step.bmFilterRecent stB7 1 "recent two" rfl rfl rfl)
    (.head (Step.bmSummarizeOk stB8 1
      { content_summary := "beta", summary_generated_at := 201 } 202
      rfl rfl)
    (.head (Step.bmDispatch stB9 2 4 rfl rfl)
    (.head (Step.bmExtractOk stB10 2 none "https://three.example/final"
      "raw three" [] "readability" none [] 300 rfl rfl)
    (.head (Step.bmFilterNoRecent stB11 2 301 rfl rfl rfl)
    (.head (Step.observeProgress stB12 0 rfl rfl rfl rfl)
    (.head (Step.observeProgress stB13 1 rfl rfl rfl rfl)
    (.head (Step.observeLastCompleted stB14 2 400 rfl rfl rfl rfl rfl)
    (.head (Step.jobStart stB15 (SummaryJob.fromCreate
      { upload_id := stB14.upload.id.getD 0 }) 401 rfl rfl)
    .refl)))))))))))))))⟩

theorem step_stB16_complete : Step 3 stB16 stB17 :=
  Step.jobComplete stB16 jobB1 (fun l => String.intercalate "; " l)
    "test-model" 42 402 rfl rfl

theorem step_stB16_fail : Step 3 stB16 stB17f :=
  Step.jobFail stB16 jobB1 "llm unavailable" rfl rfl

theorem reach_stB17 : Reachable 3 stB17 := by
  obtain ⟨s0, hinit, hrtg⟩ := reach_stB16
  exact ⟨s0, hinit, hrtg.tail step_stB16_complete⟩

/-- C3: the Recency Filter is a pure function returning
`has_recent_content = true` iff at least one discovered content date falls
within the trailing 24-hour window ending at extraction time (UTC
seconds); a date exactly 23h59m before extraction time yields `true`, a
date exactly 24h00m01s before yields `false`, and an input with no
discovered dates yields `false` rather than an error. -/
theorem recency_filter_spec (t : Int) (dates : List Int) :
    (hasRecentContentOf t dates = true ↔
      ∃ d ∈ dates, t - 86400 ≤ d ∧ d ≤ t) ∧
    hasRecentContentOf t [] = false ∧
    hasRecentContentOf t [t - (23 * 3600 + 59 * 60)] = true ∧
    hasRecentContentOf t [t - (24 * 3600 + 1)] = false := by
  refine ⟨?_, rfl, ?_, ?_⟩
  · unfold hasRecentContentOf isWithinWindow recencyWindowSeconds
    rw [List.any_eq_true]
    constructor
    · rintro ⟨d, hd, hw⟩
      rw [Bool.and_eq_true, decide_eq_true_eq, decide_eq_true_eq] at hw
      exact ⟨d, hd, hw⟩
    · rintro ⟨d, hd, h1, h2⟩
      refine ⟨d, hd, ?_⟩
      rw [Bool.and_eq_true, decide_eq_true_eq, decide_eq_true_eq]
      exact ⟨h1, h2⟩
  · simp [hasRecentContentOf, isWithinWindow, recencyWindowSeconds]
    omega
  · simp [hasRecentContentOf, isWithinWindow, recencyWindowSeconds]
    omega

/-- C1: for every reachable state, an upload that completed has a
non-empty, fully terminal bookmark set with at least one completed
bookmark; an upload that failed either has no bookmark rows at all (the
direct ingestion-failure path, `total_bookmarks = 0`) or every one of its
bookmarks failed. -/
theorem upload_terminal_outcome (mr : Nat) (s : SystemState)
    (hre : Reachable mr s) :
    (s.upload.processing_status = .completed →
      s.slots ≠ [] ∧
      (∀ sl ∈ s.slots, sl.bookmark.processing_status.isTerminal = true) ∧
      ∃ sl ∈ s.slots, sl.bookmark.processing_status = .completed) ∧
    (s.upload.processing_status = .failed →
      (s.slots = [] ∧ s.upload.total_bookmarks = some 0) ∨
      (s.slots ≠ [] ∧ ∀ sl ∈ s.slots,
        sl.bookmark.processing_status = .failed)) := by
  have hInv := inv_reachable mr s hre
  have hshape := hInv.shape
  unfold ShapeInv at hshape
  constructor
  · intro hst
    rw [hst] at hshape
    obtain ⟨_, hne, _, hterm, hany, _⟩ := hshape
    exact ⟨hne, hterm, (anyCompleted_iff _).mp hany⟩
  · intro hst
    rw [hst] at hshape
    rcases hshape with ⟨hnil, htot, _, _⟩ | ⟨_, hne, _, hallf, _⟩
    · exact Or.inl ⟨hnil, htot⟩
    · exact Or.inr ⟨hne, (allFailed_iff _).mp hallf⟩

theorem upload_terminal_outcome_witness :
    stB17.slots ≠ [] ∧ anyCompleted stB17.slots = true := by
  have h := (upload_terminal_outcome 3 stB17 reach_stB17).1 rfl
  exact ⟨h.1, (anyCompleted_iff _).mpr h.2.2⟩

/-- C2: for every reachable state, a SummaryJob row exists exactly when
the upload is `completed`; whenever it exists, every bookmark of the
upload is terminal (so no job is ever created, and none can be in any
status, while a bookmark is still in flight); an upload that failed has no
SummaryJob. -/
theorem summary_job_quiescence (mr : Nat) (s : SystemState)
    (hre : Reachable mr s) :
    (s.summaryJob ≠ none ↔ s.upload.processing_status = .completed) ∧
    (∀ job, s.summaryJob = some job →
      ∀ sl ∈ s.slots, sl.bookmark.processing_status.isTerminal = true) ∧
    (s.upload.processing_status = .failed → s.summaryJob = none) := by
  have hInv := inv_reachable mr s hre
  have hshape := hInv.shape
  unfold ShapeInv at hshape
  refine ⟨⟨?_, ?_⟩, ?_, ?_⟩
  · intro hjne
    cases hj : s.summaryJob with
    | none => exact absurd hj hjne
    | some job => exact job_implies_completed mr s job hInv hj
  · intro hst
    rw [hst] at hshape
    have hs := hshape.2.2.2.2.2
    intro hc
    rw [hc] at hs
    exact Bool.noConfusion hs
  · intro job hj sl hm
    have hco := job_implies_completed mr s job hInv hj
    rw [hco] at hshape
    exact hshape.2.2.2.1 sl hm
  · intro hst
    rw [hst] at hshape
    rcases hshape with ⟨_, _, _, hjn⟩ | ⟨_, _, _, _, hjn⟩ <;> exact hjn

theorem summary_job_quiescence_witness :
    stB17.upload.processing_status = .completed ∧
    stB17.summaryJob ≠ none :=
  ⟨(summary_job_quiescence 3 stB17 reach_stB17).1.mp (by decide),
   (summary_job_quiescence 3 stB17 reach_stB17).1.mpr (by decide)⟩

/-- C5: for every reachable state, `processed_bookmarks` never exceeds
`total_bookmarks`, equals it exactly when the upload status is terminal
(`completed` or `failed`), and is monotonically non-decreasing along every
further run of the pipeline. -/
theorem upload_progress_invariant (mr : Nat) (s : SystemState)
    (hre : Reachable mr s) :
    (∀ n, s.upload.total_bookmarks = some n →
      s.upload.processed_bookmarks ≤ n) ∧
    ((∃ n, s.upload.total_bookmarks = some n ∧
        s.upload.processed_bookmarks = n) ↔
      (s.upload.processing_status = .completed ∨
        s.upload.processing_status = .failed)) ∧
    (∀ s', Relation.ReflTransGen (Step mr) s s' →
      s.upload.processed_bookmarks ≤ s'.upload.processed_bookmarks) := by
  have hInv := inv_reachable mr s hre
  have hshape := hInv.shape
  unfold ShapeInv at hshape
  refine ⟨?_, ⟨?_, ?_⟩, fun s' h => rtg_processed_mono mr s s' h⟩
  · intro n htot
    cases hst : s.upload.processing_status with
    | pending =>
      rw [hst] at hshape
      rw [hshape.1] at htot
      exact Option.noConfusion htot
    | processing =>
      rw [hst] at hshape
      obtain ⟨htot2, _, _, hcnt⟩ := hshape
      rw [htot2] at htot
      injection htot with hn
      rw [hInv.processedEq, ← hn]
      exact Nat.le_of_lt hcnt
    | completed =>
      rw [hst] at hshape
      obtain ⟨htot2, _, hcnt, _⟩ := hshape
      rw [htot2] at htot
      injection htot with hn
      rw [hInv.processedEq, hcnt, ← hn]
    | failed =>
      rw [hst] at hshape
      rcases hshape with ⟨_, htot2, hzero, _⟩ | ⟨htot2, _, hcnt, _, _⟩
      · rw [htot2] at htot
        injection htot with hn
        rw [hzero, ← hn]
      · rw [htot2] at htot
        injection htot with hn
        rw [hInv.processedEq, hcnt, ← hn]
  · rintro ⟨n, htot, hproc⟩
    cases hst : s.upload.processing_status with
    | pending =>
      rw [hst] at hshape
      rw [hshape.1] at htot
      exact Option.noConfusion htot
    | processing =>
      rw [hst] at hshape
      obtain ⟨htot2, _, _, hcnt⟩ := hshape
      rw [htot2] at htot
      injection htot with hn
      rw [hInv.processedEq] at hproc
      exact absurd rfl (by omega : countObserved s.slots ≠
        countObserved s.slots)
    | completed => exact Or.inl rfl
    | failed => exact Or.inr rfl
  · intro hterm
    cases hst : s.upload.processing_status with
    | pending =>
      rcases hterm with h | h <;>
        (rw [hst] at h; exact BookmarkStatus.noConfusion h)
    | processing =>
      rcases hterm with h | h <;>
        (rw [hst] at h; exact BookmarkStatus.noConfusion h)
    | completed =>
      rw [hst] at hshape
      obtain ⟨htot2, _, hcnt, _⟩ := hshape
      exact ⟨s.slots.length, htot2, by rw [hInv.processedEq, hcnt]⟩
    | failed =>
      rw [hst] at hshape
      rcases hshape with ⟨_, htot2, hzero, _⟩ | ⟨htot2, _, hcnt, _, _⟩
      · exact ⟨0, htot2, hzero⟩
      · exact ⟨s.slots.length, htot2, by rw [hInv.processedEq, hcnt]⟩

theorem upload_progress_invariant_witness :
    stB17.upload.processed_bookmarks ≤ 3 ∧
    (stB17.upload.processing_status = .completed ∨
      stB17.upload.processing_status = .failed) :=
  ⟨(upload_progress_invariant 3 stB17 reach_stB17).1 3 (by decide),
   (upload_progress_invariant 3 stB17 reach_stB17).2.1.mp
     ⟨3, by decide, by decide⟩⟩

/-- C6: for every reachable state (with a positive retry budget), every
bookmark satisfies `retry_count ≤ max_retries`; and a bookmark in a
terminal status (`completed` or `failed`) is never changed by any further
pipeline operation. -/
theorem bookmark_retry_bound (mr : Nat) (s : SystemState)
    (hre : Reachable mr s) (hmr : 1 ≤ mr) :
    (∀ sl ∈ s.slots, sl.bookmark.retry_count ≤ mr) ∧
    (∀ (s' : SystemState) (i : Nat) (sl sl' : BookmarkSlot),
      Step mr s s' →
      s.slots[i]? = some sl →
      sl.bookmark.processing_status.isTerminal = true →
      s'.slots[i]? = some sl' →
      sl'.bookmark = sl.bookmark) := by
  have hInv := inv_reachable mr s hre
  refine ⟨fun sl hm => (hInv.retryBound sl hm hmr).1, ?_⟩
  intro s' i sl sl' hstep hsl hterm hsl'
  exact step_terminal_absorbing mr s s' i sl sl' hstep hsl hterm hsl'

theorem bookmark_retry_bound_witness :
    wSlot16.bookmark.retry_count ≤ 3 ∧
    wSlot17.bookmark = wSlot16.bookmark :=
  ⟨(bookmark_retry_bound 3 stB16 reach_stB16 (by decide)).1 wSlot16
     (by decide),
   (bookmark_retry_bound 3 stB16 reach_stB16 (by decide)).2 stB17 0
     wSlot16 wSlot17 step_stB16_complete (by decide) (by decide)
     (by decide)⟩

/-- C7: for every reachable state, every extracted-content row has
`filtered_content` non-null only if `has_recent_content` is true and
`content_summary` non-null only if `filtered_content` is non-null; hence a
row with `has_recent_content = false` has both `content_summary` and
`filtered_content` null. -/
theorem extracted_content_consistency (mr : Nat) (s : SystemState)
    (hre : Reachable mr s) :
    ∀ sl ∈ s.slots, ∀ ec, sl.content = some ec →
      (ec.filtered_content ≠ none → ec.has_recent_content = true) ∧
      (ec.content_summary ≠ none → ec.filtered_content ≠ none) ∧
      (ec.has_recent_content = false →
        ec.content_summary = none ∧ ec.filtered_content = none) := by
  have hInv := inv_reachable mr s hre
  intro sl hm ec hec
  obtain ⟨h1, h2, _, _⟩ := hInv.contentOk sl hm ec hec
  refine ⟨h1, h2, ?_⟩
  intro hfalse
  have hf : ec.filtered_content = none := by
    by_contra hc
    rw [h1 hc] at hfalse
    exact Bool.noConfusion hfalse
  refine ⟨?_, hf⟩
  by_contra hc
  exact absurd hf (h2 hc)

theorem extracted_content_consistency_witness :
    (wEC17.filtered_content ≠ none → wEC17.has_recent_content = true) ∧
    (wEC17.content_summary ≠ none → wEC17.filtered_content ≠ none) ∧
    (wEC17.has_recent_content = false →
      wEC17.content_summary = none ∧ wEC17.filtered_content = none) :=
  extracted_content_consistency 3 stB17 reach_stB17 wSlot17 (by decide)
    wEC17 (by decide)

/-- C10: the creation schema `ExtractedContentCreate` provides neither
`content_summary` nor `summary_generated_at` (a freshly created row has
both null); the only nugget update path, `ContentSummaryUpdate`, sets the
summary text and its generation timestamp together; consequently, in every
reachable state, `content_summary` is non-null iff `summary_generated_at`
is non-null. -/
theorem summary_fields_paired :
    (∀ c t, (ExtractedContent.fromCreate c t).content_summary = none ∧
      (ExtractedContent.fromCreate c t).summary_generated_at = none) ∧
    (∀ ec u, (applySummaryUpdate ec u).content_summary =
        some u.content_summary ∧
      (applySummaryUpdate ec u).summary_generated_at =
        some u.summary_generated_at) ∧
    (∀ mr s, Reachable mr s → ∀ sl ∈ s.slots, ∀ ec,
      sl.content = some ec →
      (ec.content_summary ≠ none ↔ ec.summary_generated_at ≠ none)) := by
  refine ⟨fun c t => ⟨rfl, rfl⟩, fun ec u => ⟨rfl, rfl⟩, ?_⟩
  intro mr s hre sl hm ec hec
  have hInv := inv_reachable mr s hre
  have hiff := (hInv.contentOk sl hm ec hec).2.2.1
  exact not_iff_not.mpr hiff

theorem summary_fields_paired_witness :
    wEC17.content_summary ≠ none ↔ wEC17.summary_generated_at ≠ none :=
  summary_fields_paired.2.2 3 stB17 reach_stB17 wSlot17 (by decide)
    wEC17 (by decide)

theorem reach_stC9 : Reachable 3 stC9 :=
  ⟨state0, by decide,
    .head (Step.ingestOk state0 [recB1] 1 rfl rfl (by decide) (by decide))
    (.head (Step.bmDispatch stC1 0 2 rfl rfl)
    (.head (Step.bmExtractFail stC2 0 "timeout" rfl rfl)
    (.head (Step.bmDispatch stC3 0 3 rfl rfl)
    (.head (Step.bmExtractFail stC4 0 "timeout" rfl rfl)
    (.head (Step.bmDispatch stC5 0 4 rfl rfl)
    (.head (Step.bmExtractOk stC6 0 none "https://one.example/final"
      "raw one" [] "readability" none [] 5 rfl rfl)
    (.head (Step.bmFilterNoRecent stC7 0 6 rfl rfl rfl)
    (.head (Step.observeLastCompleted stC8 0 7 rfl rfl rfl rfl rfl)
    .refl))))))))⟩

/-- C4: the only pipeline operations that change a bookmark's
`retry_count` are the transient extraction / summarization failures, which
share the single per-bookmark budget: the counter is incremented, the
bookmark returns to `pending` while the new count is below `max_retries`,
and transitions to `failed` with a captured error on exhaustion.  In
particular a bookmark whose extraction fails twice transiently and then
succeeds, with `max_retries = 3`, ends `completed` with
`retry_count = 2`. -/
theorem bookmark_retry_policy :
    (∀ (mr : Nat) (s s' : SystemState) (i : Nat)
      (sl sl' : BookmarkSlot), Step mr s s' →
      s.slots[i]? = some sl → s'.slots[i]? = some sl' →
      sl'.bookmark.retry_count ≠ sl.bookmark.retry_count →
      (sl.bookmark.processing_status = .extracting ∨
        sl.bookmark.processing_status = .summarizing) ∧
      sl'.bookmark.retry_count = sl.bookmark.retry_count + 1 ∧
      (sl.bookmark.retry_count + 1 < mr →
        sl'.bookmark.processing_status = .pending) ∧
      (mr ≤ sl.bookmark.retry_count + 1 →
        sl'.bookmark.processing_status = .failed ∧
        sl'.bookmark.error_message ≠ none)) ∧
    (∃ s, Reachable 3 s ∧ s.upload.processing_status = .completed ∧
      s.slots.map (fun sl => sl.bookmark.retry_count) = [2] ∧
      s.slots.map (fun sl => sl.bookmark.processing_status) =
        [.completed]) := by
  constructor
  · intro mr s s' i sl sl' h hsl hsl' hne
    exact step_retry_inversion mr s s' i sl sl' h hsl hsl' hne
  · exact ⟨stC9, reach_stC9, by decide, by decide, by decide⟩

theorem bookmark_retry_policy_witness :
    (wSlotC2.bookmark.processing_status = .extracting ∨
      wSlotC2.bookmark.processing_status = .summarizing) ∧
    wSlotC3.bookmark.retry_count = wSlotC2.bookmark.retry_count + 1 ∧
    (wSlotC2.bookmark.retry_count + 1 < 3 →
      wSlotC3.bookmark.processing_status = .pending) ∧
    (3 ≤ wSlotC2.bookmark.retry_count + 1 →
      wSlotC3.bookmark.processing_status = .failed ∧
      wSlotC3.bookmark.error_message ≠ none) :=
  bookmark_retry_policy.1 3 stC2 stC3 0 wSlotC2 wSlotC3
    (Step.bmExtractFail stC2 0 "timeout" rfl rfl) (by decide) (by decide)
    (by decide)

/-- C8: whenever a SummaryJob moves from `processing` to `completed`, the
resulting job stores `bookmarks_included` equal to the size of the
selection (the bookmarks whose extracted content has
`has_recent_content = true` and a non-null nugget, in creation order) and
a digest obtained from the ordered selection, with an explicit "no recent
activity" digest when the selection is empty; in the three-bookmark
scenario (two recent-with-nugget, one without recent content) the job
completes with `bookmarks_included = 2` and a digest over exactly the two
nuggets in order, omitting the third bookmark. -/
theorem aggregator_selection :
    (∀ (mr : Nat) (s s' : SystemState) (job job' : SummaryJob),
      Step mr s s' →
      s.summaryJob = some job → job.status = .processing →
      s'.summaryJob = some job' → job'.status = .completed →
      job'.bookmarks_included = (selectNuggets s.slots).length ∧
      (∃ f, job'.final_summary =
        some (finalDigestText (selectNuggets s.slots) f)) ∧
      (selectNuggets s.slots = [] → job'.final_summary =
        some "No recent activity in the last 24 hours.")) ∧
    (Reachable 3 stB17 ∧ stB17.upload.processing_status = .completed ∧
      stB17.slots.length = 3 ∧
      selectNuggets stB17.slots = ["alpha", "beta"] ∧
      stB17.summaryJob.map (fun j => j.status) = some .completed ∧
      stB17.summaryJob.map (fun j => j.bookmarks_included) = some 2 ∧
      stB17.summaryJob.map (fun j => j.final_summary) =
        some (some "alpha; beta")) := by
  constructor
  · intro mr s s' job job' h hj hpr hj' hco
    obtain ⟨hbi, f, hfs⟩ := step_job_completion mr s s' job job' h hj hpr
      hj' hco
    refine ⟨hbi, ⟨f, hfs⟩, ?_⟩
    intro hemp
    rw [hemp] at hfs
    rw [hfs]
    rfl
  · exact ⟨reach_stB17, by decide, by decide, by decide, by decide,
      by decide, by decide⟩

theorem aggregator_selection_witness :
    wJob17.bookmarks_included = (selectNuggets stB16.slots).length :=
  (aggregator_selection.1 3 stB16 stB17 jobB1 wJob17 step_stB16_complete
    rfl rfl (by decide) (by decide)).1

/-- C9: when a SummaryJob moves from `processing` to `failed` in a
reachable state, only the job's own fields change — the error is
recorded, every other job field is unchanged, the owning upload (which is
`completed`) and all per-bookmark results are untouched. -/
theorem summary_job_failure_frame (mr : Nat) (s s' : SystemState)
    (job job' : SummaryJob) (hre : Reachable mr s) (h : Step mr s s')
    (hj : s.summaryJob = some job) (hpr : job.status = .processing)
    (hj' : s'.summaryJob = some job') (hfa : job'.status = .failed) :
    s.upload.processing_status = .completed ∧
    s'.upload = s.upload ∧ s'.slots = s.slots ∧
    job'.error_message ≠ none ∧
    job'.upload_id = job.upload_id ∧
    job'.started_at = job.started_at ∧
    job'.completed_at = job.completed_at ∧
    job'.bookmarks_included = job.bookmarks_included ∧
    job'.final_summary = job.final_summary ∧
    job'.summary_metadata = job.summary_metadata ∧
    job'.llm_model_used = job.llm_model_used ∧
    job'.token_count = job.token_count := by
  have hInv := inv_reachable mr s hre
  have hco := job_implies_completed mr s job hInv hj
  have hfr := step_job_failure mr s s' job job' h hj hpr hj' hfa
  exact ⟨hco, hfr⟩

theorem summary_job_failure_frame_witness :
    stB16.upload.processing_status = .completed ∧
    stB17f.upload = stB16.upload ∧ stB17f.slots = stB16.slots ∧
    wJob17f.error_message ≠ none ∧
    wJob17f.upload_id = jobB1.upload_id ∧
    wJob17f.started_at = jobB1.started_at ∧
    wJob17f.completed_at = jobB1.completed_at ∧
    wJob17f.bookmarks_included = jobB1.bookmarks_included ∧
    wJob17f.final_summary = jobB1.final_summary ∧
    wJob17f.summary_metadata = jobB1.summary_metadata ∧
    wJob17f.llm_model_used = jobB1.llm_model_used ∧
    wJob17f.token_count = jobB1.token_count :=
  summary_job_failure_frame 3 stB16 stB17f jobB1 wJob17f reach_stB16
    step_stB16_fail rfl rfl (by decide) (by decide)

end BookmarkCore
